import Mathlib

/-!
# Frosted serial-port driver (`kernel/drivers/uart.c`)

A shallow embedding of the UART character-device driver: the device instance
table `DEV_UART`, descriptor resolution (`uart_check_fd`), the interrupt
handler (`uart_isr`), the restartable `devuart_write` / `devuart_read`
operations, `devuart_poll` and the registration routine `uart_fno_init`.

Conventions of the embedding

* Addresses are natural numbers, `0` is `NULL`; the caller's memory is a map
  from addresses to bytes.  Address arithmetic inside one object is exact.
* `unsigned int` values are natural numbers; a value converted to the 32-bit
  `int` of the target goes through `wrap32`.
* The circular buffer, the mutex, the scheduler, the file-node layer and the
  peripheral registers are collaborators whose sources are not part of the
  driver file; each is modelled by a small state component.
* Hardware status reads (`usart_get_interrupt_source`, `usart_is_recv_ready`,
  `usart_recv`) are inputs of the operation that performs them.
-/

namespace Frosted

set_option maxRecDepth 8000

/-! ## Machine integers and memory -/

/-- Two's complement wrap of an integer to the 32-bit `int` of the target. -/
def wrap32 (z : Int) : Int := (z + 2147483648) % 4294967296 - 2147483648

/-- Caller memory: one byte per address. -/
abbrev memory := Nat → Nat

/-- The `n` bytes stored at addresses `p, p+1, ..., p+n-1`. -/
def mem_slice (mem : memory) : Nat → Nat → List Nat
  | _, 0 => []
  | p, n + 1 => mem p :: mem_slice mem (p + 1) n

/-! ## Circular buffer -/

/-- Modelled from the spec: the circular buffer primitive (`cirbuf`, whose
source is not part of the driver file) is a fixed-capacity byte ring; here it
is its capacity together with the queued bytes, oldest first. -/
structure cirbuf where
  bufsize : Nat
  bytes : List Nat
deriving DecidableEq

/-- Modelled from the spec: `cirbuf_create(size)` makes an empty ring of the
given capacity. -/
def cirbuf_create (size : Nat) : cirbuf := { bufsize := size, bytes := [] }

/-- Modelled from the spec: `cirbuf_bytesinuse`, the occupancy query. -/
def cirbuf_bytesinuse (cb : cirbuf) : Int := (cb.bytes.length : Int)

/-- Modelled from the spec: free room of the ring. -/
def cirbuf_bytesfree (cb : cirbuf) : Nat := cb.bufsize - cb.bytes.length

/-- Modelled from the spec: `cirbuf_writebyte` enqueues one byte, or drops it
and reports `-1` when the ring is full. -/
def cirbuf_writebyte (cb : cirbuf) (byte : Nat) : Int × cirbuf :=
  if cirbuf_bytesfree cb = 0 then (-1, cb)
  else (0, { cb with bytes := cb.bytes ++ [byte] })

/-- Modelled from the spec: `cirbuf_readbyte` dequeues the oldest byte; the
result is the status (`0` on success, `-1` on an empty ring), the byte stored
through the out-pointer, and the ring afterwards. -/
def cirbuf_readbyte (cb : cirbuf) : Int × Nat × cirbuf :=
  match cb.bytes with
  | [] => (-1, 0, cb)
  | b :: rest => (0, b, { cb with bytes := rest })

/-- Modelled from the spec: the block write `cirbuf_writebytes(cb, src, len)`
accepts `min(len, free)` bytes (none for a non-positive `len`), enqueues them
in order and returns the number accepted. -/
def cirbuf_writebytes (cb : cirbuf) (mem : memory) (src : Nat) (len : Int) : Int × cirbuf :=
  let n := min len.toNat (cirbuf_bytesfree cb)
  ((n : Int), { cb with bytes := cb.bytes ++ mem_slice mem src n })

/-! ## Mutex -/

/-- Modelled from the spec: the task-context lock (`mutex_t`), with a count of
the acquire and release calls made on it. -/
structure mutex_t where
  locked : Bool
  acquired : Nat
  released : Nat
deriving DecidableEq

/-- Modelled from the spec: `frosted_mutex_init` gives a free lock. -/
def frosted_mutex_init : mutex_t := { locked := false, acquired := 0, released := 0 }

/-- Modelled from the spec: `frosted_mutex_lock`. -/
def frosted_mutex_lock (m : mutex_t) : mutex_t :=
  { m with locked := true, acquired := m.acquired + 1 }

/-- Modelled from the spec: `frosted_mutex_unlock`. -/
def frosted_mutex_unlock (m : mutex_t) : mutex_t :=
  { m with locked := false, released := m.released + 1 }

/-! ## Device instances and the kernel state -/

/-- The source's `struct dev_uart`.  The two rings and the mutex are owned by
the instance and are held by value; `w_start`/`w_end` are addresses. -/
structure dev_uart where
  base : Nat
  irq : Nat
  fno : Option Nat
  inbuf : cirbuf
  outbuf : cirbuf
  w_start : Nat
  w_end : Nat
  mutex : mutex_t
  pid : Nat
deriving DecidableEq

/-- The source's `MAX_UARTS`. -/
abbrev MAX_UARTS : Nat := 8

/-- Identity of the module owning a file node. -/
inductive module_id where
  | mod_devuart
  | other (k : Nat)
deriving DecidableEq

/-- The part of `struct fnode` the driver uses: owner, name (character codes),
parent node and the private pointer (a slot of `DEV_UART`, or `NULL`). -/
structure fnode where
  owner : module_id
  name : List Nat
  parent : Nat
  priv : Option (Fin MAX_UARTS)
deriving DecidableEq

/-- Peripheral state reached through one base address: the two interrupt
enable bits and the values handed to `usart_send`, oldest first. -/
structure usart_regs where
  txeie : Bool
  rxneie : Bool
  sent : List Nat
deriving DecidableEq

/-- Hardware status read by one operation: the transmit and receive interrupt
sources, the receive-ready indication and the receive data register. -/
structure usart_in where
  txe : Bool
  rxne : Bool
  recv_ready : Bool
  recv : Nat
deriving DecidableEq

/-- The source's `struct uart_addr` (the fields registration reads). -/
structure uart_addr where
  base : Nat
  irq : Nat
deriving DecidableEq

/-- The calling task: its id (`scheduler_get_cur_pid`) and its descriptor
table (`task_filedesc_get`), mapping a descriptor to a file-node handle. -/
structure task where
  pid : Nat
  filedesc : Int → Option Nat

/-- Kernel state seen by the driver. -/
structure Kernel where
  DEV_UART : Fin MAX_UARTS → dev_uart
  num_ttys : Nat
  fnodes : List fnode
  usart : Nat → usart_regs
  nvic : Nat → Bool
  mem : memory
  resumed : List Nat
  suspended : List Nat

/-- A zero-initialised `struct dev_uart` (static storage before registration). -/
def dev_uart_zero : dev_uart :=
  { base := 0, irq := 0, fno := none, inbuf := cirbuf_create 0, outbuf := cirbuf_create 0,
    w_start := 0, w_end := 0, mutex := frosted_mutex_init, pid := 0 }

/-- Kernel state at boot, before any registration. -/
def boot (mem : memory) : Kernel :=
  { DEV_UART := fun _ => dev_uart_zero, num_ttys := 0, fnodes := [],
    usart := fun _ => { txeie := false, rxneie := false, sent := [] },
    nvic := fun _ => false, mem := mem, resumed := [], suspended := [] }

/-- Store through a `struct dev_uart *` pointing at slot `i`. -/
def set_uart (K : Kernel) (i : Fin MAX_UARTS) (u : dev_uart) : Kernel :=
  { K with DEV_UART := Function.update K.DEV_UART i u }

/-! ## Collaborator calls acting on the kernel state -/

def usart_enable_tx_interrupt (K : Kernel) (base : Nat) : Kernel :=
  { K with usart := Function.update K.usart base { K.usart base with txeie := true } }

def usart_disable_tx_interrupt (K : Kernel) (base : Nat) : Kernel :=
  { K with usart := Function.update K.usart base { K.usart base with txeie := false } }

def usart_enable_rx_interrupt (K : Kernel) (base : Nat) : Kernel :=
  { K with usart := Function.update K.usart base { K.usart base with rxneie := true } }

def usart_disable_rx_interrupt (K : Kernel) (base : Nat) : Kernel :=
  { K with usart := Function.update K.usart base { K.usart base with rxneie := false } }

def usart_send (K : Kernel) (base : Nat) (data : Nat) : Kernel :=
  let r := K.usart base
  { K with usart := Function.update K.usart base { r with sent := r.sent ++ [data] } }

def nvic_enable_irq (K : Kernel) (irq : Nat) : Kernel :=
  { K with nvic := Function.update K.nvic irq true }

/-- The scheduler call `task_resume(pid)`, recorded in call order. -/
def task_resume (K : Kernel) (pid : Nat) : Kernel :=
  { K with resumed := K.resumed ++ [pid] }

/-- The scheduler call `task_suspend()`, recorded with the id of the task that
made it. -/
def task_suspend (K : Kernel) (t : task) : Kernel :=
  { K with suspended := K.suspended ++ [t.pid] }

/-- The scheduler call `scheduler_get_cur_pid()` stored into the 16-bit `pid`
field. -/
def scheduler_get_cur_pid (t : task) : Nat := t.pid % 65536

/-- The file-system call `task_filedesc_get(fd)`: the file node of a
descriptor, if any. -/
def task_filedesc_get (K : Kernel) (t : task) (fd : Int) : Option fnode :=
  match t.filedesc fd with
  | none => none
  | some k => K.fnodes[k]?

/-- The file-system call `fno_create(owner, name, parent)`: a new node is
appended; its handle is its position. -/
def fno_create (K : Kernel) (owner : module_id) (name : List Nat) (parent : Nat) :
    Nat × Kernel :=
  (K.fnodes.length,
   { K with fnodes := K.fnodes ++ [{ owner := owner, name := name, parent := parent, priv := none }] })

/-- Store to `fno->priv`. -/
def fnode_set_priv (K : Kernel) (fno : Nat) (p : Option (Fin MAX_UARTS)) : Kernel :=
  { K with fnodes := K.fnodes.modify (fun f => { f with priv := p }) fno }

/-! ## The driver -/

/-- The source's `uart_check_fd`. -/
def uart_check_fd (K : Kernel) (t : task) (fd : Int) : Option (Fin MAX_UARTS) :=
  match task_filedesc_get K t fd with
  | none => none
  | some fno =>
    if fd < 0 then none
    else if fno.owner ≠ module_id.mod_devuart then none
    else fno.priv

/-- The source's `uart_isr`, for the instance in slot `i`. -/
def uart_isr (K : Kernel) (i : Fin MAX_UARTS) (hw : usart_in) : Kernel :=
  let K1 :=
    if hw.txe then
      if cirbuf_bytesinuse (K.DEV_UART i).outbuf ≠ 0 then
        let r := cirbuf_readbyte (K.DEV_UART i).outbuf
        usart_send (set_uart K i { K.DEV_UART i with outbuf := r.2.2 }) (K.DEV_UART i).base r.2.1
      else usart_disable_tx_interrupt K (K.DEV_UART i).base
    else K
  let K2 :=
    if hw.rxne then
      if hw.recv_ready then
        set_uart K1 i
          { K1.DEV_UART i with inbuf := (cirbuf_writebyte (K1.DEV_UART i).inbuf (hw.recv % 256)).2 }
      else K1
    else K1
  if (K2.DEV_UART i).pid > 0 then task_resume K2 (K2.DEV_UART i).pid else K2

/-- The source's `devuart_write`.  `SYS_CALL_AGAIN` is the retry value of the
system-call layer. -/
def devuart_write (SYS_CALL_AGAIN : Int) (K : Kernel) (t : task) (fd : Int) (buf len : Nat) :
    Int × Kernel :=
  match uart_check_fd K t fd with
  | none => (-1, K)
  | some i =>
    if len = 0 then (wrap32 len, K)
    else if fd < 0 then (-1, K)
    else
      let u := K.DEV_UART i
      let u1 := if u.w_start = 0 then { u with w_start := buf, w_end := buf + len } else u
      let u2 := { u1 with mutex := frosted_mutex_lock u1.mutex }
      let w := cirbuf_writebytes u2.outbuf K.mem u2.w_start
                 (wrap32 ((u2.w_end : Int) - (u2.w_start : Int)))
      let u3 := { u2 with outbuf := w.2, w_start := u2.w_start + w.1.toNat }
      let K1 := usart_enable_tx_interrupt (set_uart K i u3) u3.base
      if u3.w_start < u3.w_end then
        let u4 := { u3 with pid := scheduler_get_cur_pid t }
        let K2 := task_suspend (set_uart K1 i u4) t
        (SYS_CALL_AGAIN, set_uart K2 i { u4 with mutex := frosted_mutex_unlock u4.mutex })
      else
        (wrap32 len,
         set_uart K1 i { u3 with mutex := frosted_mutex_unlock u3.mutex, w_start := 0, w_end := 0 })

/-- The copy loop of `devuart_read`: up to `n` more bytes are dequeued from the
ring and stored at `ptr`, `ptr+1`, ...; it stops early when the ring reports
failure.  The result is the ring, the memory and the count `out`. -/
def devuart_read_loop : Nat → cirbuf → memory → Nat → Nat → cirbuf × memory × Nat
  | 0, cb, mem, _, out => (cb, mem, out)
  | n + 1, cb, mem, ptr, out =>
    let r := cirbuf_readbyte cb
    if r.1 ≠ 0 then (cb, mem, out)
    else devuart_read_loop n r.2.2 (Function.update mem ptr r.2.1) (ptr + 1) (out + 1)

/-- The source's `devuart_read`. -/
def devuart_read (SYS_CALL_AGAIN : Int) (K : Kernel) (t : task) (fd : Int) (buf len : Nat) :
    Int × Kernel :=
  if len = 0 then (wrap32 len, K)
  else if fd < 0 then (-1, K)
  else
    match uart_check_fd K t fd with
    | none => (-1, K)
    | some i =>
      let u := K.DEV_UART i
      let u1 := { u with mutex := frosted_mutex_lock u.mutex }
      let K1 := usart_disable_rx_interrupt (set_uart K i u1) u1.base
      let len_available := cirbuf_bytesinuse u1.inbuf
      if len_available ≤ 0 then
        let u2 := { u1 with pid := scheduler_get_cur_pid t }
        let K2 := usart_enable_rx_interrupt (task_suspend (set_uart K1 i u2) t) u2.base
        (SYS_CALL_AGAIN, set_uart K2 i { u2 with mutex := frosted_mutex_unlock u2.mutex })
      else
        let len1 := if len_available.toNat < len then len_available.toNat else len
        let r := devuart_read_loop len1 u1.inbuf K1.mem buf 0
        let u2 := { u1 with inbuf := r.1, pid := 0 }
        let K2 := usart_enable_rx_interrupt { set_uart K1 i u2 with mem := r.2.1 } u2.base
        ((r.2.2 : Int), set_uart K2 i { u2 with mutex := frosted_mutex_unlock u2.mutex })

/-- The source's `devuart_poll`; `POLLIN` and `POLLOUT` are the event bits of
the poll interface, `ready` is `usart_is_recv_ready`.  The result is the return
value and the kernel state together with `*revents` (unwritten: `none`). -/
def devuart_poll (POLLIN POLLOUT : Nat) (K : Kernel) (t : task) (fd : Int) (events : Nat)
    (ready : Bool) : Int × Option Nat × Kernel :=
  match uart_check_fd K t fd with
  | none => (-1, none, K)
  | some _ =>
    let revents0 : Nat := 0
    let s1 : Int × Nat :=
      if events &&& POLLOUT ≠ 0 then (1, revents0 ||| POLLOUT) else (0, revents0)
    let s2 : Int × Nat :=
      if events = POLLIN ∧ ready = true then (1, s1.2 ||| POLLIN) else s1
    (s2.1, some s2.2, K)

/-- The source's `uart_fno_init`, for table slot `n`. -/
def uart_fno_init (K : Kernel) (dev : Nat) (n : Fin MAX_UARTS) (addr : uart_addr) :
    Int × Kernel :=
  let name : List Nat := [116, 116, 121, 83, (48 + K.num_ttys) % 256]
  let K0 := { K with num_ttys := K.num_ttys + 1 }
  if addr.base = 0 then (-1, K0)
  else
    let u := K0.DEV_UART n
    let f := fno_create K0 module_id.mod_devuart name dev
    let u1 := { u with base := addr.base, irq := addr.irq, fno := some f.1, pid := 0,
                       mutex := frosted_mutex_init, inbuf := cirbuf_create 128,
                       outbuf := cirbuf_create 128 }
    let K1 := fnode_set_priv (set_uart f.2 n u1) f.1 (some n)
    (0, nvic_enable_irq (usart_enable_rx_interrupt K1 u1.base) u1.irq)

/-! ## Auxiliary definitions used to state the properties -/

/-- Lines 144-149 of `devuart_write`: the cursor the call works with (the
arguments when no write is in flight, the persisted cursor otherwise). -/
def write_cursor (u : dev_uart) (buf len : Nat) : dev_uart :=
  if u.w_start = 0 then { u with w_start := buf, w_end := buf + len } else u

/-- Number of bytes the block write of `devuart_write` accepts. -/
def write_count (u : dev_uart) : Nat :=
  min (wrap32 ((u.w_end : Int) - (u.w_start : Int))).toNat (cirbuf_bytesfree u.outbuf)

/-- Lines 151-156 and the unlock of `devuart_write` applied to the instance. -/
def write_pushed (mem : memory) (u : dev_uart) : dev_uart :=
  { u with
    outbuf := { u.outbuf with bytes := u.outbuf.bytes ++ mem_slice mem u.w_start (write_count u) },
    w_start := u.w_start + write_count u,
    mutex := frosted_mutex_unlock (frosted_mutex_lock u.mutex) }

/-- Memory after storing the bytes `bs` at `p, p+1, ...` in that order. -/
def mem_store : memory → Nat → List Nat → memory
  | mem, _, [] => mem
  | mem, p, b :: bs => mem_store (Function.update mem p b) (p + 1) bs

/-- `k` invocations of `uart_isr` for slot `i` with the same hardware status. -/
def isr_times (i : Fin MAX_UARTS) (hw : usart_in) : Nat → Kernel → Kernel
  | 0, K => K
  | k + 1, K => isr_times i hw k (uart_isr K i hw)

/-- Transmit scenario: states reached from `K0` by re-invocations of
`devuart_write` with the same `(buf, L)` and by `uart_isr` invocations with the
transmit flag set.  The second index is the value returned by the latest write
call (`none` before the first call); write is re-invoked only before the first
call or after a retry signal. -/
inductive tx_reach (AGAIN : Int) (t : task) (fd : Int) (buf L : Nat) (i : Fin MAX_UARTS)
    (K0 : Kernel) : Kernel → Option Int → Prop where
  | start : tx_reach AGAIN t fd buf L i K0 K0 none
  | write {K : Kernel} {r : Option Int} :
      tx_reach AGAIN t fd buf L i K0 K r → (r = none ∨ r = some AGAIN) →
      tx_reach AGAIN t fd buf L i K0 (devuart_write AGAIN K t fd buf L).2
        (some (devuart_write AGAIN K t fd buf L).1)
  | isr {K : Kernel} {r : Option Int} (hw : usart_in) :
      tx_reach AGAIN t fd buf L i K0 K r → hw.txe = true →
      tx_reach AGAIN t fd buf L i K0 (uart_isr K i hw) r

/-- The part of `data` between the write cursor and its end, `data[cursor..end)`:
all of `data` before the first call, nothing once the cursor is cleared. -/
def tx_pending (K : Kernel) (i : Fin MAX_UARTS) (r : Option Int) (buf : Nat)
    (data : List Nat) : List Nat :=
  if (K.DEV_UART i).w_start = 0 then
    (match r with
     | none => data
     | some _ => [])
  else (data.drop ((K.DEV_UART i).w_start - buf)).take ((K.DEV_UART i).w_end - (K.DEV_UART i).w_start)

/-- Receive scenario: states reached from `K0` by `uart_isr` invocations that
each deliver one byte (receive flag set, hardware ready, inbound ring not
full) and by `devuart_read` calls of positive length on the instance.  The
indices are the bytes delivered so far and the bytes copied out so far by the
read calls that returned a count. -/
inductive rx_reach (AGAIN : Int) (i : Fin MAX_UARTS) (K0 : Kernel) :
    Kernel → List Nat → List Nat → Prop where
  | start : rx_reach AGAIN i K0 K0 [] []
  | isr {K : Kernel} {d o : List Nat} (hw : usart_in) :
      rx_reach AGAIN i K0 K d o → hw.rxne = true → hw.recv_ready = true → hw.recv < 256 →
      cirbuf_bytesfree (K.DEV_UART i).inbuf ≠ 0 →
      rx_reach AGAIN i K0 (uart_isr K i hw) (d ++ [hw.recv]) o
  | read {K : Kernel} {d o : List Nat} (t : task) (fd : Int) (buf n : Nat) :
      rx_reach AGAIN i K0 K d o → uart_check_fd K t fd = some i → 0 < n →
      rx_reach AGAIN i K0 (devuart_read AGAIN K t fd buf n).2 d
        (o ++ if (devuart_read AGAIN K t fd buf n).1 = AGAIN then []
              else mem_slice (devuart_read AGAIN K t fd buf n).2.mem buf
                     (devuart_read AGAIN K t fd buf n).1.toNat)

/-- Driver scenario: states reached from `K0` by `devuart_write` calls
(non-null buffers; a positive length whose value as the returned `int` is not
the retry value), `devuart_read` calls and `uart_isr` invocations on the
instance in slot `i`.  The second index is the value returned by the most
recent write call of positive length (`none` if there was none). -/
inductive drv_reach (AGAIN : Int) (i : Fin MAX_UARTS) (K0 : Kernel) :
    Kernel → Option Int → Prop where
  | start : drv_reach AGAIN i K0 K0 none
  | write {K : Kernel} {r : Option Int} (t : task) (fd : Int) (buf len : Nat) :
      drv_reach AGAIN i K0 K r → uart_check_fd K t fd = some i → buf ≠ 0 →
      0 < len → wrap32 (len : Int) ≠ AGAIN →
      drv_reach AGAIN i K0 (devuart_write AGAIN K t fd buf len).2
        (some (devuart_write AGAIN K t fd buf len).1)
  | write_zero {K : Kernel} {r : Option Int} (t : task) (fd : Int) (buf : Nat) :
      drv_reach AGAIN i K0 K r → uart_check_fd K t fd = some i →
      drv_reach AGAIN i K0 (devuart_write AGAIN K t fd buf 0).2 r
  | read {K : Kernel} {r : Option Int} (t : task) (fd : Int) (buf len : Nat) :
      drv_reach AGAIN i K0 K r → uart_check_fd K t fd = some i →
      drv_reach AGAIN i K0 (devuart_read AGAIN K t fd buf len).2 r
  | isr {K : Kernel} {r : Option Int} (hw : usart_in) :
      drv_reach AGAIN i K0 K r → drv_reach AGAIN i K0 (uart_isr K i hw) r

/-! ## A concrete configuration -/

/-- A sample value of the retry constant of the system-call layer. -/
def again_sample : Int := -1024

/-- Sample memory: address `a` holds the byte `a mod 256`. -/
def mem0 : memory := fun a => a % 256

/-- Sample task: id 5, descriptor 3 opened on the first file node. -/
def t0 : task := { pid := 5, filedesc := fun fd => if fd = 3 then some 0 else none }

/-- Slot 0 registered on the boot state. -/
def Kreg : Kernel := (uart_fno_init (boot mem0) 0 0 { base := 1000, irq := 37 }).2

/-- Status of a transmit-only interrupt. -/
def hw_tx : usart_in := { txe := true, rxne := false, recv_ready := false, recv := 0 }

/-- Status of a receive interrupt delivering the byte `b`. -/
def hw_rx (b : Nat) : usart_in := { txe := false, rxne := true, recv_ready := true, recv := b }

/-- Slot 0 with a write in flight: a 129-byte write filled the 128-byte ring and
asked for a retry, then one transmit interrupt drained one byte. -/
def Kflight : Kernel := uart_isr (devuart_write again_sample Kreg t0 3 5000 129).2 0 hw_tx

/-- Slots 0 and 1 both registered. -/
def Kreg2 : Kernel := (uart_fno_init Kreg 0 1 { base := 2000, irq := 38 }).2

/-- Slot 0 after two receive interrupts delivering 65 and 66. -/
def Krx2 : Kernel := uart_isr (uart_isr Kreg 0 (hw_rx 65)) 0 (hw_rx 66)

/-- Slot 0 after a one-byte read and a third receive interrupt delivering 67. -/
def Krx3 : Kernel := uart_isr (devuart_read again_sample Krx2 t0 3 7000 1).2 0 (hw_rx 67)

/-- Slot 0 with three bytes queued for transmission: a completed 3-byte write. -/
def Ktx3 : Kernel := (devuart_write again_sample Kreg t0 3 5000 3).2

/-- Boot state after a registration attempt on slot 0 with the unconfigured
base address 0. -/
def Kfail : Kernel := (uart_fno_init (boot mem0) 0 0 { base := 0, irq := 37 }).2

/-! ## Basic facts -/

theorem wrap32_of_lt (z : Int) (h0 : 0 ≤ z) (h1 : z < 2147483648) : wrap32 z = z := by
  unfold wrap32; omega

theorem mem_slice_length (mem : memory) (p n : Nat) : (mem_slice mem p n).length = n := by
  induction n generalizing p with
  | zero => rfl
  | succ n ih => simp [mem_slice, ih]

theorem mem_slice_add (mem : memory) (p a b : Nat) :
    mem_slice mem p (a + b) = mem_slice mem p a ++ mem_slice mem (p + a) b := by
  induction a generalizing p with
  | zero => simp [mem_slice]
  | succ a ih =>
    have h1 : a + 1 + b = (a + b) + 1 := by omega
    have h2 : p + 1 + a = p + (a + 1) := by omega
    rw [h1]
    simp only [mem_slice, List.cons_append, ih (p + 1), h2]

theorem mem_slice_take (mem : memory) (p n k : Nat) (h : k ≤ n) :
    (mem_slice mem p n).take k = mem_slice mem p k := by
  obtain ⟨d, rfl⟩ := Nat.exists_eq_add_of_le h
  rw [mem_slice_add, List.take_left' (mem_slice_length mem p k)]

theorem mem_slice_drop (mem : memory) (p n k : Nat) (h : k ≤ n) :
    (mem_slice mem p n).drop k = mem_slice mem (p + k) (n - k) := by
  obtain ⟨d, rfl⟩ := Nat.exists_eq_add_of_le h
  rw [mem_slice_add, List.drop_left' (mem_slice_length mem p k)]
  simp

theorem mem_store_below (mem : memory) (p a : Nat) (bs : List Nat) (h : a < p) :
    mem_store mem p bs a = mem a := by
  induction bs generalizing mem p with
  | nil => rfl
  | cons b bs ih =>
    simp only [mem_store]
    rw [ih _ _ (by omega), Function.update_noteq (by omega)]

theorem mem_slice_store (mem : memory) (p : Nat) (bs : List Nat) :
    mem_slice (mem_store mem p bs) p bs.length = bs := by
  induction bs generalizing mem p with
  | nil => rfl
  | cons b bs ih =>
    simp only [mem_store, List.length_cons, mem_slice, ih]
    rw [mem_store_below _ _ _ _ (by omega)]
    simp

theorem uart_check_fd_nonneg {K : Kernel} {t : task} {fd : Int} {i : Fin MAX_UARTS}
    (h : uart_check_fd K t fd = some i) : ¬ fd < 0 := by
  unfold uart_check_fd at h
  split at h
  · simp at h
  · split at h
    · simp at h
    · assumption

theorem uart_check_fd_congr {K K' : Kernel} (h : K'.fnodes = K.fnodes) (t : task) (fd : Int) :
    uart_check_fd K' t fd = uart_check_fd K t fd := by
  simp [uart_check_fd, task_filedesc_get, h]

theorem write_cursor_base (u : dev_uart) (buf len : Nat) :
    (write_cursor u buf len).base = u.base := by
  unfold write_cursor; split <;> rfl

/-! ## The two paths of `devuart_write` -/

theorem devuart_write_again (AGAIN : Int) (K : Kernel) (t : task) (fd : Int) (i : Fin MAX_UARTS)
    (buf L : Nat) (hfd : uart_check_fd K t fd = some i) (hL : L ≠ 0)
    (hlt : (write_pushed K.mem (write_cursor (K.DEV_UART i) buf L)).w_start
            < (write_cursor (K.DEV_UART i) buf L).w_end) :
    devuart_write AGAIN K t fd buf L =
      (AGAIN,
       { K with
         DEV_UART := Function.update K.DEV_UART i
           { write_pushed K.mem (write_cursor (K.DEV_UART i) buf L) with
             pid := scheduler_get_cur_pid t },
         usart := Function.update K.usart (K.DEV_UART i).base
           { K.usart (K.DEV_UART i).base with txeie := true },
         suspended := K.suspended ++ [t.pid] }) := by
  have hnn := uart_check_fd_nonneg hfd
  unfold devuart_write
  simp only [hfd, if_neg hL, if_neg hnn]
  change (if (write_pushed K.mem (write_cursor (K.DEV_UART i) buf L)).w_start
            < (write_cursor (K.DEV_UART i) buf L).w_end then _ else _) = _
  rw [if_pos hlt]
  simp only [cirbuf_writebytes, Int.toNat_ofNat]
  by_cases h0 : (K.DEV_UART i).w_start = 0 <;>
  simp [set_uart, usart_enable_tx_interrupt, task_suspend, write_pushed, write_count,
    write_cursor, h0]

theorem devuart_write_done (AGAIN : Int) (K : Kernel) (t : task) (fd : Int) (i : Fin MAX_UARTS)
    (buf L : Nat) (hfd : uart_check_fd K t fd = some i) (hL : L ≠ 0)
    (hge : ¬ (write_pushed K.mem (write_cursor (K.DEV_UART i) buf L)).w_start
            < (write_cursor (K.DEV_UART i) buf L).w_end) :
    devuart_write AGAIN K t fd buf L =
      (wrap32 L,
       { K with
         DEV_UART := Function.update K.DEV_UART i
           { write_pushed K.mem (write_cursor (K.DEV_UART i) buf L) with
             w_start := 0, w_end := 0 },
         usart := Function.update K.usart (K.DEV_UART i).base
           { K.usart (K.DEV_UART i).base with txeie := true } }) := by
  have hnn := uart_check_fd_nonneg hfd
  unfold devuart_write
  simp only [hfd, if_neg hL, if_neg hnn]
  change (if (write_pushed K.mem (write_cursor (K.DEV_UART i) buf L)).w_start
            < (write_cursor (K.DEV_UART i) buf L).w_end then _ else _) = _
  rw [if_neg hge]
  simp only [cirbuf_writebytes, Int.toNat_ofNat]
  by_cases h0 : (K.DEV_UART i).w_start = 0 <;>
  simp [set_uart, usart_enable_tx_interrupt, write_pushed, write_count, write_cursor, h0]

theorem cirbuf_bytesinuse_eq_zero (cb : cirbuf) : cirbuf_bytesinuse cb = 0 ↔ cb.bytes = [] := by
  unfold cirbuf_bytesinuse
  constructor
  · intro h
    have : cb.bytes.length = 0 := by omega
    exact List.length_eq_zero.mp this
  · intro h
    simp [h]

theorem uart_isr_uart (K : Kernel) (i : Fin MAX_UARTS) (hw : usart_in) :
    (uart_isr K i hw).DEV_UART i =
      { K.DEV_UART i with
        outbuf := if hw.txe = true then
            { (K.DEV_UART i).outbuf with bytes := (K.DEV_UART i).outbuf.bytes.tail }
          else (K.DEV_UART i).outbuf,
        inbuf := if hw.rxne = true ∧ hw.recv_ready = true then
            (cirbuf_writebyte (K.DEV_UART i).inbuf (hw.recv % 256)).2
          else (K.DEV_UART i).inbuf } := by
  unfold uart_isr
  rcases hu : K.DEV_UART i with ⟨base, irq, fno, inbuf, ⟨osz, obytes⟩, ws, we, m, pid⟩
  cases obytes <;>
  by_cases h1 : hw.txe = true <;> by_cases h2 : hw.rxne = true <;>
  by_cases h3 : hw.recv_ready = true <;>
  by_cases h4 : pid > 0 <;>
  simp [h1, h2, h3, h4, hu, set_uart, usart_send, usart_disable_tx_interrupt, task_resume,
    cirbuf_bytesinuse_eq_zero, cirbuf_readbyte]

theorem uart_isr_other (K : Kernel) (i j : Fin MAX_UARTS) (hw : usart_in) (hij : j ≠ i) :
    (uart_isr K i hw).DEV_UART j = K.DEV_UART j := by
  unfold uart_isr
  rcases hu : K.DEV_UART i with ⟨base, irq, fno, inbuf, ⟨osz, obytes⟩, ws, we, m, pid⟩
  cases obytes <;>
  by_cases h1 : hw.txe = true <;> by_cases h2 : hw.rxne = true <;>
  by_cases h3 : hw.recv_ready = true <;>
  by_cases h4 : pid > 0 <;>
  simp [h1, h2, h3, h4, hu, hij, set_uart, usart_send, usart_disable_tx_interrupt, task_resume,
    cirbuf_bytesinuse_eq_zero, cirbuf_readbyte]

theorem uart_isr_mem (K : Kernel) (i : Fin MAX_UARTS) (hw : usart_in) :
    (uart_isr K i hw).mem = K.mem := by
  unfold uart_isr
  rcases hu : K.DEV_UART i with ⟨base, irq, fno, inbuf, ⟨osz, obytes⟩, ws, we, m, pid⟩
  cases obytes <;>
  by_cases h1 : hw.txe = true <;> by_cases h2 : hw.rxne = true <;>
  by_cases h3 : hw.recv_ready = true <;>
  by_cases h4 : pid > 0 <;>
  simp [h1, h2, h3, h4, hu, set_uart, usart_send, usart_disable_tx_interrupt, task_resume,
    cirbuf_bytesinuse_eq_zero, cirbuf_readbyte]

theorem uart_isr_fnodes (K : Kernel) (i : Fin MAX_UARTS) (hw : usart_in) :
    (uart_isr K i hw).fnodes = K.fnodes := by
  unfold uart_isr
  rcases hu : K.DEV_UART i with ⟨base, irq, fno, inbuf, ⟨osz, obytes⟩, ws, we, m, pid⟩
  cases obytes <;>
  by_cases h1 : hw.txe = true <;> by_cases h2 : hw.rxne = true <;>
  by_cases h3 : hw.recv_ready = true <;>
  by_cases h4 : pid > 0 <;>
  simp [h1, h2, h3, h4, hu, set_uart, usart_send, usart_disable_tx_interrupt, task_resume,
    cirbuf_bytesinuse_eq_zero, cirbuf_readbyte]

theorem uart_isr_usart (K : Kernel) (i : Fin MAX_UARTS) (hw : usart_in) :
    (uart_isr K i hw).usart =
      if hw.txe = true then
        Function.update K.usart (K.DEV_UART i).base
          (match (K.DEV_UART i).outbuf.bytes with
           | [] => { K.usart (K.DEV_UART i).base with txeie := false }
           | b :: _ => { K.usart (K.DEV_UART i).base with
                         sent := (K.usart (K.DEV_UART i).base).sent ++ [b] })
      else K.usart := by
  unfold uart_isr
  rcases hu : K.DEV_UART i with ⟨base, irq, fno, inbuf, ⟨osz, obytes⟩, ws, we, m, pid⟩
  cases obytes <;>
  by_cases h1 : hw.txe = true <;> by_cases h2 : hw.rxne = true <;>
  by_cases h3 : hw.recv_ready = true <;>
  by_cases h4 : pid > 0 <;>
  simp [h1, h2, h3, h4, hu, set_uart, usart_send, usart_disable_tx_interrupt, task_resume,
    cirbuf_bytesinuse_eq_zero, cirbuf_readbyte]

theorem devuart_read_loop_eq (n : Nat) (cb : cirbuf) (mem : memory) (ptr out : Nat) :
    devuart_read_loop n cb mem ptr out =
      ({ cb with bytes := cb.bytes.drop n }, mem_store mem ptr (cb.bytes.take n),
       out + min n cb.bytes.length) := by
  induction n generalizing cb mem ptr out with
  | zero => simp [devuart_read_loop, mem_store]
  | succ n ih =>
    obtain ⟨sz, bytes⟩ := cb
    cases bytes with
    | nil => simp [devuart_read_loop, cirbuf_readbyte, mem_store]
    | cons b bs =>
      simp [devuart_read_loop, cirbuf_readbyte, mem_store, ih]
      omega

theorem devuart_read_again (AGAIN : Int) (K : Kernel) (t : task) (fd : Int) (i : Fin MAX_UARTS)
    (buf n : Nat) (hfd : uart_check_fd K t fd = some i) (hn : n ≠ 0)
    (hempty : (K.DEV_UART i).inbuf.bytes = []) :
    devuart_read AGAIN K t fd buf n =
      (AGAIN,
       { K with
         DEV_UART := Function.update K.DEV_UART i
           { K.DEV_UART i with
             pid := scheduler_get_cur_pid t,
             mutex := frosted_mutex_unlock (frosted_mutex_lock (K.DEV_UART i).mutex) },
         usart := Function.update K.usart (K.DEV_UART i).base
           { K.usart (K.DEV_UART i).base with rxneie := true },
         suspended := K.suspended ++ [t.pid] }) := by
  have hnn := uart_check_fd_nonneg hfd
  unfold devuart_read
  simp [hfd, hn, hnn, hempty, cirbuf_bytesinuse, set_uart, usart_disable_rx_interrupt,
    usart_enable_rx_interrupt, task_suspend]

theorem devuart_read_data (AGAIN : Int) (K : Kernel) (t : task) (fd : Int) (i : Fin MAX_UARTS)
    (buf n : Nat) (hfd : uart_check_fd K t fd = some i) (hn : n ≠ 0)
    (hdata : (K.DEV_UART i).inbuf.bytes ≠ []) :
    devuart_read AGAIN K t fd buf n =
      (((min (K.DEV_UART i).inbuf.bytes.length n : Nat) : Int),
       { K with
         DEV_UART := Function.update K.DEV_UART i
           { K.DEV_UART i with
             inbuf := { (K.DEV_UART i).inbuf with
                        bytes := (K.DEV_UART i).inbuf.bytes.drop
                                   (min (K.DEV_UART i).inbuf.bytes.length n) },
             pid := 0,
             mutex := frosted_mutex_unlock (frosted_mutex_lock (K.DEV_UART i).mutex) },
         usart := Function.update K.usart (K.DEV_UART i).base
           { K.usart (K.DEV_UART i).base with rxneie := true },
         mem := mem_store K.mem buf
                  ((K.DEV_UART i).inbuf.bytes.take (min (K.DEV_UART i).inbuf.bytes.length n)) }) := by
  have hnn := uart_check_fd_nonneg hfd
  have hlen : 0 < (K.DEV_UART i).inbuf.bytes.length := List.length_pos.mpr hdata
  have hle : ¬ cirbuf_bytesinuse (K.DEV_UART i).inbuf ≤ 0 := by
    unfold cirbuf_bytesinuse; omega
  have hmin : (if (cirbuf_bytesinuse (K.DEV_UART i).inbuf).toNat < n
      then (cirbuf_bytesinuse (K.DEV_UART i).inbuf).toNat else n)
      = min (K.DEV_UART i).inbuf.bytes.length n := by
    unfold cirbuf_bytesinuse
    simp only [Int.toNat_ofNat]
    split <;> omega
  have hmm : min (min (K.DEV_UART i).inbuf.bytes.length n) (K.DEV_UART i).inbuf.bytes.length
      = min (K.DEV_UART i).inbuf.bytes.length n := by omega
  unfold devuart_read
  simp only [if_neg hn, if_neg hnn, hfd]
  simp only [set_uart, usart_disable_rx_interrupt, usart_enable_rx_interrupt,
    Function.update_same, if_neg hle, hmin, devuart_read_loop_eq, Nat.zero_add, hmm]
  simp

theorem isr_times_fnodes (i : Fin MAX_UARTS) (hw : usart_in) (k : Nat) (K : Kernel) :
    (isr_times i hw k K).fnodes = K.fnodes := by
  induction k generalizing K with
  | zero => rfl
  | succ k ih => simp only [isr_times, ih, uart_isr_fnodes]

theorem isr_times_mem (i : Fin MAX_UARTS) (hw : usart_in) (k : Nat) (K : Kernel) :
    (isr_times i hw k K).mem = K.mem := by
  induction k generalizing K with
  | zero => rfl
  | succ k ih => simp only [isr_times, ih, uart_isr_mem]

theorem isr_times_tx_uart (i : Fin MAX_UARTS) (hw : usart_in) (k : Nat) (K : Kernel)
    (htx : hw.txe = true) (hrx : hw.rxne = false) :
    (isr_times i hw k K).DEV_UART i =
      { K.DEV_UART i with
        outbuf := { (K.DEV_UART i).outbuf with bytes := (K.DEV_UART i).outbuf.bytes.drop k } } := by
  induction k generalizing K with
  | zero => simp [isr_times]
  | succ k ih =>
    simp only [isr_times, ih, uart_isr_uart]
    simp [htx, hrx]

/-! ## Zero-length calls (C6) -/

/-- C6: on a descriptor that resolves to a registered instance, `devuart_write`
and `devuart_read` called with length 0 return 0 and leave the whole kernel
state (both rings, waiting task id, write cursor, lock, interrupt enables)
unchanged, whatever the state of the instance. -/
theorem zero_length_is_noop (AGAIN : Int) (K : Kernel) (t : task) (fd : Int)
    (i : Fin MAX_UARTS) (buf : Nat) (hfd : uart_check_fd K t fd = some i) :
    devuart_write AGAIN K t fd buf 0 = (0, K) ∧ devuart_read AGAIN K t fd buf 0 = (0, K) := by
  constructor
  · simp [devuart_write, hfd, wrap32]
  · simp [devuart_read, wrap32]

/-- C6 at the sample configuration: a zero-length write and read on the
registered slot 0. -/
theorem zero_length_is_noop_witness :
    uart_check_fd Kreg t0 3 = some 0
    ∧ devuart_write again_sample Kreg t0 3 5000 0 = (0, Kreg)
    ∧ devuart_read again_sample Kreg t0 3 5000 0 = (0, Kreg) :=
  ⟨by rfl, zero_length_is_noop again_sample Kreg t0 3 0 5000 (by rfl)⟩

/-! ## Partial acceptance (C3) -/

/-- C3: on an idle instance whose outbound ring has `f` free bytes, a write of
length `L > f` enqueues exactly the first `f` bytes of the data, leaves the
cursor at `data+f` with end `data+L`, records the current task id, enables the
transmit interrupt and returns the retry value; in any later state with that
cursor and at least `L-f` free bytes, the re-invoked call enqueues exactly the
remaining `L-f` bytes, clears the cursor and returns `L`. -/
theorem write_partial_acceptance (AGAIN : Int) (K : Kernel) (t : task) (fd : Int)
    (i : Fin MAX_UARTS) (buf L f : Nat)
    (hfd : uart_check_fd K t fd = some i)
    (hidle : (K.DEV_UART i).w_start = 0)
    (hfree : cirbuf_bytesfree (K.DEV_UART i).outbuf = f)
    (hL : f < L) (hLint : L < 2147483648) (hpid : t.pid < 65536) :
    ((devuart_write AGAIN K t fd buf L).1 = AGAIN
      ∧ ((devuart_write AGAIN K t fd buf L).2.DEV_UART i).outbuf.bytes
          = (K.DEV_UART i).outbuf.bytes ++ mem_slice K.mem buf f
      ∧ ((devuart_write AGAIN K t fd buf L).2.DEV_UART i).w_start = buf + f
      ∧ ((devuart_write AGAIN K t fd buf L).2.DEV_UART i).w_end = buf + L
      ∧ ((devuart_write AGAIN K t fd buf L).2.DEV_UART i).pid = t.pid
      ∧ ((devuart_write AGAIN K t fd buf L).2.usart (K.DEV_UART i).base).txeie = true)
    ∧ ∀ K' : Kernel, uart_check_fd K' t fd = some i →
        (K'.DEV_UART i).w_start = buf + f → (K'.DEV_UART i).w_end = buf + L →
        L - f ≤ cirbuf_bytesfree (K'.DEV_UART i).outbuf →
        (devuart_write AGAIN K' t fd buf L).1 = (L : Int)
        ∧ ((devuart_write AGAIN K' t fd buf L).2.DEV_UART i).outbuf.bytes
            = (K'.DEV_UART i).outbuf.bytes ++ mem_slice K'.mem (buf + f) (L - f)
        ∧ ((devuart_write AGAIN K' t fd buf L).2.DEV_UART i).w_start = 0
        ∧ ((devuart_write AGAIN K' t fd buf L).2.DEV_UART i).w_end = 0 := by
  have hL0 : L ≠ 0 := by omega
  constructor
  · have hw : wrap32 ((buf + L : Nat) - (buf : Nat) : Int) = L := by
      rw [wrap32_of_lt] <;> push_cast <;> omega
    have hc : write_count (write_cursor (K.DEV_UART i) buf L) = f := by
      simp only [write_count, write_cursor, if_pos hidle, hw, hfree, Int.toNat_ofNat]
      omega
    have hlt : (write_pushed K.mem (write_cursor (K.DEV_UART i) buf L)).w_start
        < (write_cursor (K.DEV_UART i) buf L).w_end := by
      simp only [write_pushed, hc]
      simp only [write_cursor, if_pos hidle]
      omega
    rw [devuart_write_again AGAIN K t fd i buf L hfd hL0 hlt]
    simp only [Function.update_same, write_pushed, hc]
    simp only [write_cursor, if_pos hidle, scheduler_get_cur_pid]
    simpa using Nat.mod_eq_of_lt hpid
  · intro K' hfd' hs he hroom
    have hcs : (write_cursor (K'.DEV_UART i) buf L).w_start = buf + f := by
      unfold write_cursor
      split
      · simp only; omega
      · exact hs
    have hce : (write_cursor (K'.DEV_UART i) buf L).w_end = buf + L := by
      unfold write_cursor
      split
      · rfl
      · exact he
    have hco : (write_cursor (K'.DEV_UART i) buf L).outbuf = (K'.DEV_UART i).outbuf := by
      unfold write_cursor
      split <;> rfl
    have hw : wrap32 ((buf + L : Nat) - (buf + f : Nat) : Int) = ((L - f : Nat) : Int) := by
      rw [wrap32_of_lt] <;> push_cast <;> omega
    have hc : write_count (write_cursor (K'.DEV_UART i) buf L) = L - f := by
      simp only [write_count, hcs, hce, hco, hw, Int.toNat_ofNat]
      omega
    have hge : ¬ (write_pushed K'.mem (write_cursor (K'.DEV_UART i) buf L)).w_start
        < (write_cursor (K'.DEV_UART i) buf L).w_end := by
      simp only [write_pushed, hc, hcs, hce]
      omega
    rw [devuart_write_done AGAIN K' t fd i buf L hfd' hL0 hge]
    simp only [Function.update_same, write_pushed, hc, hcs, hco]
    simpa using wrap32_of_lt (L : Int) (by omega) (by omega)

/-- C3 at the reference configuration: capacity 128, empty ring, `L = 200`.
The first call accepts 128 bytes and asks for a retry; after 128 transmit
interrupts the re-invoked call accepts the remaining 72 and reports 200. -/
theorem write_partial_acceptance_witness :
    ((devuart_write again_sample Kreg t0 3 5000 200).1 = again_sample
      ∧ ((devuart_write again_sample Kreg t0 3 5000 200).2.DEV_UART 0).outbuf.bytes.length = 128
      ∧ ((devuart_write again_sample Kreg t0 3 5000 200).2.DEV_UART 0).w_start = 5000 + 128)
    ∧ ((devuart_write again_sample
          (isr_times 0 hw_tx 128 (devuart_write again_sample Kreg t0 3 5000 200).2)
          t0 3 5000 200).1 = 200
      ∧ ((devuart_write again_sample
          (isr_times 0 hw_tx 128 (devuart_write again_sample Kreg t0 3 5000 200).2)
          t0 3 5000 200).2.DEV_UART 0).outbuf.bytes.length = 72
      ∧ ((devuart_write again_sample
          (isr_times 0 hw_tx 128 (devuart_write again_sample Kreg t0 3 5000 200).2)
          t0 3 5000 200).2.DEV_UART 0).w_start = 0) := by
  have h := write_partial_acceptance again_sample Kreg t0 3 0 5000 200 128
    (by rfl) (by rfl) (by rfl) (by decide) (by decide) (by decide)
  have hu := isr_times_tx_uart 0 hw_tx 128 (devuart_write again_sample Kreg t0 3 5000 200).2
    rfl rfl
  have hb : ((devuart_write again_sample Kreg t0 3 5000 200).2.DEV_UART 0).outbuf.bytes.length
      = 128 := by
    rw [h.1.2.1]; rfl
  have h2 := h.2 (isr_times 0 hw_tx 128 (devuart_write again_sample Kreg t0 3 5000 200).2)
    (by rw [uart_check_fd_congr (isr_times_fnodes _ _ _ _)]; rfl)
    (by rw [hu]; exact h.1.2.2.1)
    (by rw [hu]; exact h.1.2.2.2.1)
    (by rw [hu]; simp only [cirbuf_bytesfree, List.length_drop, hb]; decide)
  refine ⟨⟨h.1.1, hb, h.1.2.2.1⟩, h2.1, ?_, h2.2.2.1⟩
  rw [h2.2.1, hu]
  simp [hb, mem_slice_length]

/-! ## Read on an empty, then filled, inbound ring (C5) -/

/-- C5: with a positive max-length `n`, `devuart_read` on an empty inbound ring
returns the retry value, records the current task id as waiting and stores
nothing in the caller's buffer; on a ring holding `k ≥ 1` bytes it returns
`min(k, n)`, the caller's buffer holds the first `min(k, n)` bytes in arrival
order, the other bytes stay queued in order and the waiting task id is 0. -/
theorem read_empty_then_filled (AGAIN : Int) (K : Kernel) (t : task) (fd : Int)
    (i : Fin MAX_UARTS) (buf n : Nat)
    (hfd : uart_check_fd K t fd = some i) (hn : 0 < n) (hpid : t.pid < 65536) :
    ((K.DEV_UART i).inbuf.bytes = [] →
        (devuart_read AGAIN K t fd buf n).1 = AGAIN
        ∧ ((devuart_read AGAIN K t fd buf n).2.DEV_UART i).pid = t.pid
        ∧ (devuart_read AGAIN K t fd buf n).2.mem = K.mem)
    ∧ ((K.DEV_UART i).inbuf.bytes ≠ [] →
        (devuart_read AGAIN K t fd buf n).1
          = ((min (K.DEV_UART i).inbuf.bytes.length n : Nat) : Int)
        ∧ mem_slice (devuart_read AGAIN K t fd buf n).2.mem buf
            (min (K.DEV_UART i).inbuf.bytes.length n)
          = (K.DEV_UART i).inbuf.bytes.take (min (K.DEV_UART i).inbuf.bytes.length n)
        ∧ ((devuart_read AGAIN K t fd buf n).2.DEV_UART i).inbuf.bytes
          = (K.DEV_UART i).inbuf.bytes.drop (min (K.DEV_UART i).inbuf.bytes.length n)
        ∧ ((devuart_read AGAIN K t fd buf n).2.DEV_UART i).pid = 0) := by
  have hn0 : n ≠ 0 := by omega
  constructor
  · intro hempty
    rw [devuart_read_again AGAIN K t fd i buf n hfd hn0 hempty]
    simpa [scheduler_get_cur_pid] using Nat.mod_eq_of_lt hpid
  · intro hdata
    rw [devuart_read_data AGAIN K t fd i buf n hfd hn0 hdata]
    simp only [Function.update_same, true_and, and_true]
    have hlen : ((K.DEV_UART i).inbuf.bytes.take
        (min (K.DEV_UART i).inbuf.bytes.length n)).length
        = min (K.DEV_UART i).inbuf.bytes.length n := by
      rw [List.length_take]; omega
    have := mem_slice_store K.mem buf
      ((K.DEV_UART i).inbuf.bytes.take (min (K.DEV_UART i).inbuf.bytes.length n))
    rw [hlen] at this
    exact this

/-- C5 at the sample configuration: `read(fd, buf, 10)` on the empty ring asks
for a retry; three bytes arrive through receive interrupts; the re-invoked
read returns 3 and the caller's buffer holds those bytes in arrival order. -/
theorem read_empty_then_filled_witness :
    (devuart_read again_sample Kreg t0 3 7000 10).1 = again_sample
    ∧ (devuart_read again_sample
        (uart_isr (uart_isr (uart_isr (devuart_read again_sample Kreg t0 3 7000 10).2
          0 (hw_rx 65)) 0 (hw_rx 66)) 0 (hw_rx 67)) t0 3 7000 10).1 = 3
    ∧ mem_slice (devuart_read again_sample
        (uart_isr (uart_isr (uart_isr (devuart_read again_sample Kreg t0 3 7000 10).2
          0 (hw_rx 65)) 0 (hw_rx 66)) 0 (hw_rx 67)) t0 3 7000 10).2.mem 7000 3
        = [65, 66, 67] :=
  ⟨((read_empty_then_filled again_sample Kreg t0 3 0 7000 10 (by rfl) (by decide)
      (by decide)).1 (by rfl)).1,
   ((read_empty_then_filled again_sample
      (uart_isr (uart_isr (uart_isr (devuart_read again_sample Kreg t0 3 7000 10).2
          0 (hw_rx 65)) 0 (hw_rx 66)) 0 (hw_rx 67)) t0 3 0 7000 10 (by rfl) (by decide)
      (by decide)).2 (by decide)).1,
   ((read_empty_then_filled again_sample
      (uart_isr (uart_isr (uart_isr (devuart_read again_sample Kreg t0 3 7000 10).2
          0 (hw_rx 65)) 0 (hw_rx 66)) 0 (hw_rx 67)) t0 3 0 7000 10 (by rfl) (by decide)
      (by decide)).2 (by decide)).2.1⟩

/-! ## Restart of a write in flight (C4) -/

theorem write_cursor_in_flight (u : dev_uart) (buf len : Nat) (h : u.w_start ≠ 0) :
    write_cursor u buf len = u := by
  simp [write_cursor, h]

/-- C4, as stated, fails: with a write in flight (started with length 129, one
byte left to enqueue), a call with other arguments `(9000, 7)` completes and
returns 7, while the call with the original arguments returns 129. -/
theorem restart_return_value_differs :
    (Kflight.DEV_UART 0).w_start ≠ 0
    ∧ (devuart_write again_sample Kflight t0 3 9000 7).1 = 7
    ∧ (devuart_write again_sample Kflight t0 3 5000 129).1 = 129 :=
  ⟨by decide, by rfl, by rfl⟩

/-- C4 (amended): with a write in flight, `devuart_write` called with any other
buffer pointer and positive length produces the same kernel state as the call
with the original arguments; both calls take the same path, returning the
retry value on the retry path, and on completion each returns its own length
argument converted to `int`. -/
theorem restart_ignores_arguments (AGAIN : Int) (K : Kernel) (t : task) (fd : Int)
    (i : Fin MAX_UARTS) (buf L buf' L' : Nat)
    (hfd : uart_check_fd K t fd = some i)
    (hflight : (K.DEV_UART i).w_start ≠ 0) (hL : 0 < L) (hL' : 0 < L') :
    (devuart_write AGAIN K t fd buf' L').2 = (devuart_write AGAIN K t fd buf L).2
    ∧ (((devuart_write AGAIN K t fd buf' L').1 = AGAIN
          ∧ (devuart_write AGAIN K t fd buf L).1 = AGAIN)
       ∨ ((devuart_write AGAIN K t fd buf' L').1 = wrap32 L'
          ∧ (devuart_write AGAIN K t fd buf L).1 = wrap32 L)) := by
  have hL0 : L ≠ 0 := by omega
  have hL0' : L' ≠ 0 := by omega
  have hc := write_cursor_in_flight (K.DEV_UART i) buf L hflight
  have hc' := write_cursor_in_flight (K.DEV_UART i) buf' L' hflight
  by_cases hlt : (write_pushed K.mem (K.DEV_UART i)).w_start < (K.DEV_UART i).w_end
  · rw [devuart_write_again AGAIN K t fd i buf L hfd hL0 (by rw [hc]; exact hlt),
      devuart_write_again AGAIN K t fd i buf' L' hfd hL0' (by rw [hc']; exact hlt), hc, hc']
    exact ⟨rfl, Or.inl ⟨rfl, rfl⟩⟩
  · rw [devuart_write_done AGAIN K t fd i buf L hfd hL0 (by rw [hc]; exact hlt),
      devuart_write_done AGAIN K t fd i buf' L' hfd hL0' (by rw [hc']; exact hlt), hc, hc']
    exact ⟨rfl, Or.inr ⟨rfl, rfl⟩⟩

/-- C4 (amended) at the sample in-flight state. -/
theorem restart_ignores_arguments_witness :
    (devuart_write again_sample Kflight t0 3 9000 7).2
      = (devuart_write again_sample Kflight t0 3 5000 129).2
    ∧ (((devuart_write again_sample Kflight t0 3 9000 7).1 = again_sample
          ∧ (devuart_write again_sample Kflight t0 3 5000 129).1 = again_sample)
       ∨ ((devuart_write again_sample Kflight t0 3 9000 7).1 = wrap32 (7 : Nat)
          ∧ (devuart_write again_sample Kflight t0 3 5000 129).1 = wrap32 (129 : Nat))) :=
  restart_ignores_arguments again_sample Kflight t0 3 0 5000 129 9000 7
    (by rfl) (by decide) (by decide) (by decide)

/-! ## Invalid descriptors (C7) -/

/-- C7, as stated, fails: `devuart_read` with length 0 on a descriptor with no
file node returns 0, not -1. -/
theorem read_zero_on_invalid_descriptor :
    uart_check_fd Kreg t0 4 = none ∧ (devuart_read again_sample Kreg t0 4 7000 0).1 = 0 :=
  ⟨by rfl, by rfl⟩

/-- C7 (amended): on a descriptor that does not resolve to an instance of this
driver, `devuart_write` (every length) and `devuart_poll` (every event set)
return -1, `devuart_read` returns -1 for every positive length and 0 for
length 0; none of them changes the kernel state, and poll writes no events. -/
theorem invalid_descriptor_rejected (AGAIN : Int) (K : Kernel) (t : task) (fd : Int)
    (hfd : uart_check_fd K t fd = none) (buf len events POLLIN POLLOUT : Nat) (ready : Bool) :
    devuart_write AGAIN K t fd buf len = (-1, K)
    ∧ (0 < len → devuart_read AGAIN K t fd buf len = (-1, K))
    ∧ devuart_read AGAIN K t fd buf 0 = (0, K)
    ∧ devuart_poll POLLIN POLLOUT K t fd events ready = (-1, none, K) := by
  refine ⟨?_, ?_, ?_, ?_⟩
  · simp [devuart_write, hfd]
  · intro hlen
    have : len ≠ 0 := by omega
    simp only [devuart_read, hfd, if_neg this]
    split <;> rfl
  · simp [devuart_read, wrap32]
  · simp [devuart_poll, hfd]

/-- C7 (amended) at the sample configuration, descriptor 4 having no file
node. -/
theorem invalid_descriptor_rejected_witness :
    uart_check_fd Kreg t0 4 = none
    ∧ devuart_write again_sample Kreg t0 4 5000 10 = (-1, Kreg)
    ∧ (0 < 10 → devuart_read again_sample Kreg t0 4 5000 10 = (-1, Kreg))
    ∧ devuart_read again_sample Kreg t0 4 5000 0 = (0, Kreg)
    ∧ devuart_poll 1 4 Kreg t0 4 1 true = (-1, none, Kreg) :=
  ⟨by rfl, invalid_descriptor_rejected again_sample Kreg t0 4 (by rfl) 5000 10 1 1 4 true⟩

/-! ## Waiting task id after a completed write (C8) -/

/-- C8 (the code at the failing input): on a freshly registered instance the
waiting task id is 0; a 129-byte write by task 5 asks for a retry; after one
transmit interrupt the re-invoked write completes and returns 129, yet the
waiting task id is still 5. -/
theorem waiting_id_survives_write_completion :
    (Kreg.DEV_UART 0).pid = 0
    ∧ (devuart_write again_sample Kreg t0 3 5000 129).1 = again_sample
    ∧ (devuart_write again_sample Kflight t0 3 5000 129).1 = 129
    ∧ ((devuart_write again_sample Kflight t0 3 5000 129).2.DEV_UART 0).w_start = 0
    ∧ ((devuart_write again_sample Kflight t0 3 5000 129).2.DEV_UART 0).pid = 5 :=
  ⟨by rfl, by rfl, by rfl, by rfl, by rfl⟩

/-! ## Instance isolation (C10) -/

theorem devuart_write_other (AGAIN : Int) (K : Kernel) (t : task) (fd : Int)
    (i j : Fin MAX_UARTS) (buf len : Nat) (hfd : uart_check_fd K t fd = some i) (hij : j ≠ i) :
    (devuart_write AGAIN K t fd buf len).2.DEV_UART j = K.DEV_UART j := by
  by_cases hlen : len = 0
  · simp [devuart_write, hfd, hlen]
  · by_cases hlt : (write_pushed K.mem (write_cursor (K.DEV_UART i) buf len)).w_start
        < (write_cursor (K.DEV_UART i) buf len).w_end
    · rw [devuart_write_again AGAIN K t fd i buf len hfd hlen hlt]
      exact Function.update_noteq hij _ _
    · rw [devuart_write_done AGAIN K t fd i buf len hfd hlen hlt]
      exact Function.update_noteq hij _ _

theorem devuart_read_other (AGAIN : Int) (K : Kernel) (t : task) (fd : Int)
    (i j : Fin MAX_UARTS) (buf len : Nat) (hfd : uart_check_fd K t fd = some i) (hij : j ≠ i) :
    (devuart_read AGAIN K t fd buf len).2.DEV_UART j = K.DEV_UART j := by
  by_cases hlen : len = 0
  · simp [devuart_read, hlen]
  · by_cases hempty : (K.DEV_UART i).inbuf.bytes = []
    · rw [devuart_read_again AGAIN K t fd i buf len hfd hlen hempty]
      exact Function.update_noteq hij _ _
    · rw [devuart_read_data AGAIN K t fd i buf len hfd hlen hempty]
      exact Function.update_noteq hij _ _

theorem devuart_poll_state (POLLIN POLLOUT : Nat) (K : Kernel) (t : task) (fd : Int)
    (events : Nat) (ready : Bool) :
    (devuart_poll POLLIN POLLOUT K t fd events ready).2.2 = K := by
  unfold devuart_poll
  split <;> rfl

/-- C10: for two distinct table slots `i ≠ j`, a `devuart_read`, `devuart_write`
or `devuart_poll` call on a descriptor resolving to instance `i`, and a
`uart_isr` invocation for instance `i`, leave the whole of instance `j` (both
rings, write cursor, waiting task id, lock, base, irq) unchanged. -/
theorem instance_isolation (AGAIN : Int) (K : Kernel) (i j : Fin MAX_UARTS) (hij : i ≠ j) :
    (∀ (t : task) (fd : Int) (buf len : Nat), uart_check_fd K t fd = some i →
        (devuart_read AGAIN K t fd buf len).2.DEV_UART j = K.DEV_UART j
        ∧ (devuart_write AGAIN K t fd buf len).2.DEV_UART j = K.DEV_UART j)
    ∧ (∀ (POLLIN POLLOUT : Nat) (t : task) (fd : Int) (events : Nat) (ready : Bool),
        uart_check_fd K t fd = some i →
        (devuart_poll POLLIN POLLOUT K t fd events ready).2.2.DEV_UART j = K.DEV_UART j)
    ∧ (∀ hw : usart_in, (uart_isr K i hw).DEV_UART j = K.DEV_UART j) := by
  have hji : j ≠ i := fun h => hij h.symm
  refine ⟨?_, ?_, ?_⟩
  · intro t fd buf len hfd
    exact ⟨devuart_read_other AGAIN K t fd i j buf len hfd hji,
      devuart_write_other AGAIN K t fd i j buf len hfd hji⟩
  · intro POLLIN POLLOUT t fd events ready _
    rw [devuart_poll_state]
  · intro hw
    exact uart_isr_other K i j hw hji

/-- C10 at the sample configuration with slots 0 and 1 registered: a write, a
read and an interrupt on slot 0 leave slot 1 as it was. -/
theorem instance_isolation_witness :
    (0 : Fin MAX_UARTS) ≠ 1
    ∧ uart_check_fd Kreg2 t0 3 = some 0
    ∧ (devuart_read again_sample Kreg2 t0 3 7000 10).2.DEV_UART 1 = Kreg2.DEV_UART 1
    ∧ (devuart_write again_sample Kreg2 t0 3 5000 200).2.DEV_UART 1 = Kreg2.DEV_UART 1
    ∧ (uart_isr Kreg2 0 (hw_rx 65)).DEV_UART 1 = Kreg2.DEV_UART 1 :=
  ⟨by decide, by rfl,
   ((instance_isolation again_sample Kreg2 0 1 (by decide)).1 t0 3 7000 10 (by rfl)).1,
   ((instance_isolation again_sample Kreg2 0 1 (by decide)).1 t0 3 5000 200 (by rfl)).2,
   (instance_isolation again_sample Kreg2 0 1 (by decide)).2.2 (hw_rx 65)⟩

/-! ## Transmit order (C1) -/

theorem write_cursor_outbuf (u : dev_uart) (buf len : Nat) :
    (write_cursor u buf len).outbuf = u.outbuf := by
  unfold write_cursor; split <;> rfl

/-- One `devuart_write` call from a state whose effective cursor is
`(buf + k, buf + L)` and in which the bytes sent and queued so far are
`S ++ data[0..k)`. -/
theorem tx_write_step (AGAIN : Int) (K : Kernel) (t : task) (fd : Int) (i : Fin MAX_UARTS)
    (buf L k : Nat) (S : List Nat)
    (hfd : uart_check_fd K t fd = some i) (hLint : L < 2147483648) (hk : k < L)
    (hs : (write_cursor (K.DEV_UART i) buf L).w_start = buf + k)
    (he : (write_cursor (K.DEV_UART i) buf L).w_end = buf + L)
    (hinv : (K.usart (K.DEV_UART i).base).sent ++ (K.DEV_UART i).outbuf.bytes
              = S ++ mem_slice K.mem buf k) :
    (devuart_write AGAIN K t fd buf L).2.mem = K.mem
    ∧ (devuart_write AGAIN K t fd buf L).2.fnodes = K.fnodes
    ∧ ((devuart_write AGAIN K t fd buf L).2.DEV_UART i).base = (K.DEV_UART i).base
    ∧ (((devuart_write AGAIN K t fd buf L).1 = AGAIN
        ∧ ∃ k', k' < L
          ∧ ((devuart_write AGAIN K t fd buf L).2.DEV_UART i).w_start = buf + k'
          ∧ ((devuart_write AGAIN K t fd buf L).2.DEV_UART i).w_end = buf + L
          ∧ ((devuart_write AGAIN K t fd buf L).2.usart (K.DEV_UART i).base).sent
              ++ ((devuart_write AGAIN K t fd buf L).2.DEV_UART i).outbuf.bytes
              = S ++ mem_slice K.mem buf k')
       ∨ ((devuart_write AGAIN K t fd buf L).1 = (L : Int)
          ∧ ((devuart_write AGAIN K t fd buf L).2.DEV_UART i).w_start = 0
          ∧ ((devuart_write AGAIN K t fd buf L).2.usart (K.DEV_UART i).base).sent
              ++ ((devuart_write AGAIN K t fd buf L).2.DEV_UART i).outbuf.bytes
              = S ++ mem_slice K.mem buf L)) := by
  have hL0 : L ≠ 0 := by omega
  have hob := write_cursor_outbuf (K.DEV_UART i) buf L
  have hbase := write_cursor_base (K.DEV_UART i) buf L
  have hw : wrap32 ((buf + L : Nat) - (buf + k : Nat) : Int) = ((L - k : Nat) : Int) := by
    rw [wrap32_of_lt] <;> push_cast <;> omega
  have hc : write_count (write_cursor (K.DEV_UART i) buf L)
      = min (L - k) (cirbuf_bytesfree (K.DEV_UART i).outbuf) := by
    simp only [write_count, hs, he, hob, hw, Int.toNat_ofNat]
  have hcle : write_count (write_cursor (K.DEV_UART i) buf L) ≤ L - k := by
    rw [hc]; exact Nat.min_le_left _ _
  by_cases hlt : (write_pushed K.mem (write_cursor (K.DEV_UART i) buf L)).w_start
      < (write_cursor (K.DEV_UART i) buf L).w_end
  · rw [devuart_write_again AGAIN K t fd i buf L hfd hL0 hlt]
    have hlt' : buf + k + write_count (write_cursor (K.DEV_UART i) buf L) < buf + L := by
      simpa only [write_pushed, hs, he] using hlt
    refine ⟨rfl, rfl, ?_, Or.inl ⟨rfl, k + write_count (write_cursor (K.DEV_UART i) buf L),
      by omega, ?_, ?_, ?_⟩⟩
    · simp only [Function.update_same, write_pushed, hbase]
    · simp only [Function.update_same, write_pushed, hs]; omega
    · simp only [Function.update_same, write_pushed, he]
    · simp only [Function.update_same, write_pushed, hob, hs]
      rw [← List.append_assoc, hinv, List.append_assoc, ← mem_slice_add]
  · rw [devuart_write_done AGAIN K t fd i buf L hfd hL0 hlt]
    have hge : ¬ buf + k + write_count (write_cursor (K.DEV_UART i) buf L) < buf + L := by
      simpa only [write_pushed, hs, he] using hlt
    have hcn : write_count (write_cursor (K.DEV_UART i) buf L) = L - k := by omega
    refine ⟨rfl, rfl, ?_, Or.inr ⟨wrap32_of_lt (L : Int) (by omega) (by omega), ?_, ?_⟩⟩
    · simp only [Function.update_same, write_pushed, hbase]
    · simp only [Function.update_same]
    · simp only [Function.update_same, write_pushed, hob, hs, hcn]
      rw [← List.append_assoc, hinv, List.append_assoc, ← mem_slice_add]
      have : k + (L - k) = L := by omega
      rw [this]

/-- One transmit interrupt keeps the concatenation of the bytes sent and the
bytes queued. -/
theorem tx_isr_step (K : Kernel) (i : Fin MAX_UARTS) (hw : usart_in) (htx : hw.txe = true) :
    ((uart_isr K i hw).usart (K.DEV_UART i).base).sent
        ++ ((uart_isr K i hw).DEV_UART i).outbuf.bytes
      = (K.usart (K.DEV_UART i).base).sent ++ (K.DEV_UART i).outbuf.bytes := by
  rw [uart_isr_usart, uart_isr_uart]
  simp only [htx, if_true, Function.update_same]
  cases (K.DEV_UART i).outbuf.bytes with
  | nil => simp
  | cons b rest => simp

theorem uart_isr_cursor (K : Kernel) (i : Fin MAX_UARTS) (hw : usart_in) :
    ((uart_isr K i hw).DEV_UART i).w_start = (K.DEV_UART i).w_start
    ∧ ((uart_isr K i hw).DEV_UART i).w_end = (K.DEV_UART i).w_end
    ∧ ((uart_isr K i hw).DEV_UART i).base = (K.DEV_UART i).base
    ∧ ((uart_isr K i hw).DEV_UART i).pid = (K.DEV_UART i).pid
    ∧ ((uart_isr K i hw).DEV_UART i).mutex = (K.DEV_UART i).mutex
    ∧ ((uart_isr K i hw).DEV_UART i).irq = (K.DEV_UART i).irq := by
  rw [uart_isr_uart]
  exact ⟨rfl, rfl, rfl, rfl, rfl, rfl⟩

/-- Invariant of the transmit scenario, by induction on the interleaving. -/
theorem tx_reach_inv (AGAIN : Int) (t : task) (fd : Int) (buf L : Nat) (i : Fin MAX_UARTS)
    (K0 K : Kernel) (r : Option Int)
    (hfd : uart_check_fd K0 t fd = some i)
    (hidle : (K0.DEV_UART i).w_start = 0)
    (hempty : (K0.DEV_UART i).outbuf.bytes = [])
    (hL : 0 < L) (hLint : L < 2147483648) (hbuf : buf ≠ 0) (hA : AGAIN < 0)
    (hreach : tx_reach AGAIN t fd buf L i K0 K r) :
    K.mem = K0.mem ∧ K.fnodes = K0.fnodes ∧ (K.DEV_UART i).base = (K0.DEV_UART i).base
    ∧ ((r = none ∧ (K.DEV_UART i).w_start = 0
          ∧ (K.usart (K0.DEV_UART i).base).sent ++ (K.DEV_UART i).outbuf.bytes
              = (K0.usart (K0.DEV_UART i).base).sent)
       ∨ (r = some AGAIN ∧ ∃ k, k < L
          ∧ (K.DEV_UART i).w_start = buf + k ∧ (K.DEV_UART i).w_end = buf + L
          ∧ (K.usart (K0.DEV_UART i).base).sent ++ (K.DEV_UART i).outbuf.bytes
              = (K0.usart (K0.DEV_UART i).base).sent ++ mem_slice K0.mem buf k)
       ∨ (r = some (L : Int) ∧ (K.DEV_UART i).w_start = 0
          ∧ (K.usart (K0.DEV_UART i).base).sent ++ (K.DEV_UART i).outbuf.bytes
              = (K0.usart (K0.DEV_UART i).base).sent ++ mem_slice K0.mem buf L)) := by
  induction hreach with
  | start =>
    refine ⟨rfl, rfl, rfl, Or.inl ⟨rfl, hidle, ?_⟩⟩
    rw [hempty, List.append_nil]
  | @write K r _ hr ih =>
    obtain ⟨hmem, hfn, hbase, hcases⟩ := ih
    have hfdK : uart_check_fd K t fd = some i := by
      rw [uart_check_fd_congr hfn]; exact hfd
    have hAL : (L : Int) ≠ AGAIN := by omega
    -- the effective cursor of this call is `(buf + k, buf + L)`
    have hcur : ∃ k, k < L
        ∧ (write_cursor (K.DEV_UART i) buf L).w_start = buf + k
        ∧ (write_cursor (K.DEV_UART i) buf L).w_end = buf + L
        ∧ (K.usart (K.DEV_UART i).base).sent ++ (K.DEV_UART i).outbuf.bytes
            = (K0.usart (K0.DEV_UART i).base).sent ++ mem_slice K.mem buf k := by
      rcases hcases with ⟨_, hws, hsq⟩ | ⟨_, k, hk, hws, hwe, hsq⟩ | ⟨hrL, _, _⟩
      · refine ⟨0, hL, ?_, ?_, ?_⟩
        · simp [write_cursor, hws]
        · simp [write_cursor, hws]
        · rw [hbase, hsq]; simp [mem_slice]
      · have hne : (K.DEV_UART i).w_start ≠ 0 := by omega
        refine ⟨k, hk, ?_, ?_, ?_⟩
        · rw [write_cursor_in_flight _ _ _ hne]; exact hws
        · rw [write_cursor_in_flight _ _ _ hne]; exact hwe
        · rw [hbase, hsq, hmem]
      · exfalso
        rcases hr with h | h
        · rw [h] at hrL; cases hrL
        · rw [h] at hrL
          exact hAL (Option.some.inj hrL).symm
    obtain ⟨k, hk, hs, he, hsq⟩ := hcur
    obtain ⟨h1, h2, h3, h4⟩ := tx_write_step AGAIN K t fd i buf L k
      (K0.usart (K0.DEV_UART i).base).sent hfdK hLint hk hs he hsq
    refine ⟨h1.trans hmem, h2.trans hfn, h3.trans hbase, Or.inr ?_⟩
    rw [hbase, hmem] at h4
    rcases h4 with ⟨hret, k', hk', hws', hwe', hsq'⟩ | ⟨hret, hws', hsq'⟩
    · exact Or.inl ⟨by rw [hret], k', hk', hws', hwe', hsq'⟩
    · exact Or.inr ⟨by rw [hret], hws', hsq'⟩
  | @isr K r hw _ htx ih =>
    obtain ⟨hmem, hfn, hbase, hcases⟩ := ih
    obtain ⟨hws, hwe, hb, _⟩ := uart_isr_cursor K i hw
    have hstep := tx_isr_step K i hw htx
    rw [hbase] at hstep
    refine ⟨(uart_isr_mem K i hw).trans hmem, (uart_isr_fnodes K i hw).trans hfn,
      hb.trans hbase, ?_⟩
    rw [hstep, hws, hwe]
    exact hcases

/-- C1: in every state reached from an idle instance with an empty outbound ring
by re-invocations of `devuart_write` with the same `(data, L)` and by `uart_isr`
invocations with the transmit flag set, the bytes already passed to
`usart_send`, followed by the bytes queued in the outbound ring, followed by
`data[cursor..end)`, are exactly `data`; hence once write has returned `L` and
the ring has drained, the transmitted sequence is `data`, in order, each byte
once. -/
theorem transmit_order (AGAIN : Int) (t : task) (fd : Int) (buf L : Nat) (i : Fin MAX_UARTS)
    (K0 K : Kernel) (r : Option Int)
    (hfd : uart_check_fd K0 t fd = some i)
    (hidle : (K0.DEV_UART i).w_start = 0)
    (hempty : (K0.DEV_UART i).outbuf.bytes = [])
    (hL : 0 < L) (hLint : L < 2147483648) (hbuf : buf ≠ 0) (hA : AGAIN < 0)
    (hreach : tx_reach AGAIN t fd buf L i K0 K r) :
    ((K.usart (K0.DEV_UART i).base).sent ++ (K.DEV_UART i).outbuf.bytes
        ++ tx_pending K i r buf (mem_slice K0.mem buf L)
      = (K0.usart (K0.DEV_UART i).base).sent ++ mem_slice K0.mem buf L)
    ∧ (r = some (L : Int) → (K.DEV_UART i).outbuf.bytes = [] →
        (K.usart (K0.DEV_UART i).base).sent
          = (K0.usart (K0.DEV_UART i).base).sent ++ mem_slice K0.mem buf L) := by
  obtain ⟨_, _, _, hcases⟩ :=
    tx_reach_inv AGAIN t fd buf L i K0 K r hfd hidle hempty hL hLint hbuf hA hreach
  have hAL : (L : Int) ≠ AGAIN := by omega
  rcases hcases with ⟨hr, hws, hsq⟩ | ⟨hr, k, hk, hws, hwe, hsq⟩ | ⟨hr, hws, hsq⟩
  · subst hr
    refine ⟨?_, fun h => by cases h⟩
    rw [hsq]
    simp [tx_pending, hws]
  · subst hr
    have hne : (K.DEV_UART i).w_start ≠ 0 := by omega
    constructor
    · rw [hsq]
      have h1 : buf + k - buf = k := by omega
      have h2 : buf + L - (buf + k) = L - k := by omega
      unfold tx_pending
      rw [if_neg hne, hws, hwe, h1, h2]
      rw [mem_slice_drop _ _ _ _ (Nat.le_of_lt hk),
        List.take_of_length_le (by rw [mem_slice_length]), List.append_assoc,
        ← mem_slice_add]
      have : k + (L - k) = L := by omega
      rw [this]
    · intro h
      exact absurd (Option.some.inj h).symm hAL
  · subst hr
    constructor
    · rw [hsq]
      simp [tx_pending, hws]
    · intro _ hq
      rw [hq, List.append_nil] at hsq
      exact hsq

theorem tx_reach_isr_times (AGAIN : Int) (t : task) (fd : Int) (buf L : Nat)
    (i : Fin MAX_UARTS) (K0 : Kernel) (hw : usart_in) (htx : hw.txe = true) (k : Nat)
    (K : Kernel) (r : Option Int) (h : tx_reach AGAIN t fd buf L i K0 K r) :
    tx_reach AGAIN t fd buf L i K0 (isr_times i hw k K) r := by
  induction k generalizing K with
  | zero => exact h
  | succ k ih => exact ih _ (tx_reach.isr hw h htx)

/-- C1 at the sample configuration: a 129-byte write on the registered slot 0
asks for a retry after 128 bytes; after one transmit interrupt the re-invoked
call enqueues the last byte and returns 129; after 128 more transmit
interrupts the ring is empty and the bytes sent are the 129 bytes of data. -/
theorem transmit_order_witness :
    (devuart_write again_sample Kflight t0 3 5000 129).1 = 129
    ∧ ((isr_times 0 hw_tx 128 (devuart_write again_sample Kflight t0 3 5000 129).2).DEV_UART
        0).outbuf.bytes = []
    ∧ ((isr_times 0 hw_tx 128 (devuart_write again_sample Kflight t0 3 5000 129).2).usart
        (Kreg.DEV_UART 0).base).sent
      = (Kreg.usart (Kreg.DEV_UART 0).base).sent ++ mem_slice Kreg.mem 5000 129 := by
  have hq : ((isr_times 0 hw_tx 128
      (devuart_write again_sample Kflight t0 3 5000 129).2).DEV_UART 0).outbuf.bytes = [] := by
    rw [isr_times_tx_uart 0 hw_tx 128 _ rfl rfl]
    rfl
  exact ⟨by rfl, hq,
    (transmit_order again_sample t0 3 5000 129 0 Kreg
      (isr_times 0 hw_tx 128 (devuart_write again_sample Kflight t0 3 5000 129).2)
      (some (devuart_write again_sample Kflight t0 3 5000 129).1)
      (by rfl) (by rfl) (by rfl) (by decide) (by decide) (by decide) (by decide)
      (tx_reach_isr_times _ _ _ _ _ _ _ hw_tx rfl 128 _ _
        (tx_reach.write (tx_reach.isr hw_tx (tx_reach.write tx_reach.start (Or.inl rfl)) rfl)
          (Or.inr (by rfl))))).2 (by rfl) hq⟩

/-! ## Receive order (C2) -/

/-- C2: starting from an empty inbound ring, whatever the interleaving of
`uart_isr` invocations delivering one byte each (receive flag set, hardware
ready, ring not full) with `devuart_read` calls of positive max-length, the
bytes copied out by the read calls that returned a count, followed by the
bytes still queued in the inbound ring, are the delivered bytes in order. -/
theorem receive_order (AGAIN : Int) (i : Fin MAX_UARTS) (K0 K : Kernel) (d o : List Nat)
    (hempty : (K0.DEV_UART i).inbuf.bytes = []) (hA : AGAIN < 0)
    (hreach : rx_reach AGAIN i K0 K d o) :
    o ++ (K.DEV_UART i).inbuf.bytes = d := by
  induction hreach with
  | start => simp [hempty]
  | @isr K d o hw _ hrx hready hbyte hroom ih =>
    rw [uart_isr_uart]
    have hmod : hw.recv % 256 = hw.recv := Nat.mod_eq_of_lt hbyte
    simp only [hrx, hready, and_self, if_true, cirbuf_writebyte, if_neg hroom, hmod]
    rw [← List.append_assoc, ih]
  | @read K d o t fd buf n _ hfd hn ih =>
    have hn0 : n ≠ 0 := by omega
    by_cases hq : (K.DEV_UART i).inbuf.bytes = []
    · rw [devuart_read_again AGAIN K t fd i buf n hfd hn0 hq]
      simp only [if_true, List.append_nil, Function.update_same]
      exact ih
    · rw [devuart_read_data AGAIN K t fd i buf n hfd hn0 hq]
      have hne : ((min (K.DEV_UART i).inbuf.bytes.length n : Nat) : Int) ≠ AGAIN := by omega
      simp only [if_neg hne, Int.toNat_ofNat, Function.update_same]
      have hlen : ((K.DEV_UART i).inbuf.bytes.take
          (min (K.DEV_UART i).inbuf.bytes.length n)).length
          = min (K.DEV_UART i).inbuf.bytes.length n := by
        rw [List.length_take]; omega
      have hsl := mem_slice_store K.mem buf
        ((K.DEV_UART i).inbuf.bytes.take (min (K.DEV_UART i).inbuf.bytes.length n))
      rw [hlen] at hsl
      rw [hsl, List.append_assoc, List.take_append_drop]
      exact ih

/-- C2 at the sample configuration: 65 and 66 arrive, a one-byte read copies
out 65, then 67 arrives and a ten-byte read copies out 66 and 67; nothing
stays queued. -/
theorem receive_order_witness :
    (devuart_read again_sample Krx2 t0 3 7000 1).1 = 1
    ∧ (devuart_read again_sample Krx3 t0 3 7000 10).1 = 2
    ∧ mem_slice (devuart_read again_sample Krx2 t0 3 7000 1).2.mem 7000 1
        ++ mem_slice (devuart_read again_sample Krx3 t0 3 7000 10).2.mem 7000 2
        ++ ((devuart_read again_sample Krx3 t0 3 7000 10).2.DEV_UART 0).inbuf.bytes
      = [65, 66, 67] :=
  ⟨by rfl, by rfl,
   receive_order again_sample 0 Kreg (devuart_read again_sample Krx3 t0 3 7000 10).2
    [65, 66, 67]
    (mem_slice (devuart_read again_sample Krx2 t0 3 7000 1).2.mem 7000 1
      ++ mem_slice (devuart_read again_sample Krx3 t0 3 7000 10).2.mem 7000 2)
    (by rfl) (by decide)
    (rx_reach.read t0 3 7000 10
      (rx_reach.isr (hw_rx 67)
        (rx_reach.read t0 3 7000 1
          (rx_reach.isr (hw_rx 66)
            (rx_reach.isr (hw_rx 65) rx_reach.start rfl rfl (by decide) (by decide))
            rfl rfl (by decide) (by decide))
          (by rfl) (by decide))
        rfl rfl (by decide) (by decide))
      (by rfl) (by decide))⟩

/-! ## Write-cursor invariant (C9) -/

theorem devuart_read_cursor (AGAIN : Int) (K : Kernel) (t : task) (fd : Int)
    (i : Fin MAX_UARTS) (buf len : Nat) (hfd : uart_check_fd K t fd = some i) :
    ((devuart_read AGAIN K t fd buf len).2.DEV_UART i).w_start = (K.DEV_UART i).w_start
    ∧ ((devuart_read AGAIN K t fd buf len).2.DEV_UART i).w_end = (K.DEV_UART i).w_end := by
  by_cases hlen : len = 0
  · simp [devuart_read, hlen]
  · by_cases hempty : (K.DEV_UART i).inbuf.bytes = []
    · rw [devuart_read_again AGAIN K t fd i buf len hfd hlen hempty]
      simp only [Function.update_same, and_self]
    · rw [devuart_read_data AGAIN K t fd i buf len hfd hlen hempty]
      simp only [Function.update_same, and_self]

theorem uart_fno_init_cursor (K : Kernel) (dev : Nat) (n : Fin MAX_UARTS) (addr : uart_addr) :
    ((uart_fno_init K dev n addr).2.DEV_UART n).w_start = (K.DEV_UART n).w_start := by
  unfold uart_fno_init
  by_cases hb : addr.base = 0
  · simp [hb]
  · simp [hb, fnode_set_priv, set_uart, fno_create, nvic_enable_irq, usart_enable_rx_interrupt]

/-- C9, as stated, fails: on the freshly registered slot 0 a 129-byte write
asks for a retry and one transmit interrupt drains a byte (cursor non-none);
the next write call, with a non-null buffer and the positive length
`2^32 - 1024`, ignores its arguments, enqueues the last byte, clears the cursor
and returns `len` converted to `int`, which is `-1024`, the retry value: the
most recent write call returned the retry value and the cursor is none. -/
theorem cursor_cleared_with_retry_value :
    (devuart_write again_sample Kreg t0 3 5000 129).1 = again_sample
    ∧ (Kflight.DEV_UART 0).w_start ≠ 0
    ∧ (9000 : Nat) ≠ 0 ∧ 0 < (4294966272 : Nat)
    ∧ (devuart_write again_sample Kflight t0 3 9000 4294966272).1 = again_sample
    ∧ ((devuart_write again_sample Kflight t0 3 9000 4294966272).2.DEV_UART 0).w_start = 0 :=
  ⟨by rfl, by decide, by decide, by decide, by rfl, by rfl⟩

/-- C9 (amended): in every state reached from a freshly registered instance by
`devuart_write` calls with non-null buffers and a length whose value as the
returned `int` is not the retry value (every length below `2^31` when the
retry value is negative), `devuart_read` calls and `uart_isr` invocations, the
write cursor is non-none exactly when the most recent write call of positive
length returned the retry value; a non-none cursor has `next < end`; and after
a write call that returned its byte count the cursor is none. -/
theorem write_cursor_invariant (AGAIN : Int) (i : Fin MAX_UARTS) (Kb K : Kernel) (dev : Nat)
    (addr : uart_addr) (r : Option Int)
    (hzero : (Kb.DEV_UART i).w_start = 0) (_hbase : addr.base ≠ 0)
    (hreach : drv_reach AGAIN i (uart_fno_init Kb dev i addr).2 K r) :
    ((K.DEV_UART i).w_start ≠ 0 ↔ r = some AGAIN)
    ∧ ((K.DEV_UART i).w_start ≠ 0 → (K.DEV_UART i).w_start < (K.DEV_UART i).w_end)
    ∧ (∀ v : Int, r = some v → v ≠ AGAIN → (K.DEV_UART i).w_start = 0) := by
  have key : ((K.DEV_UART i).w_start ≠ 0 ↔ r = some AGAIN)
      ∧ ((K.DEV_UART i).w_start ≠ 0 → (K.DEV_UART i).w_start < (K.DEV_UART i).w_end) := by
    induction hreach with
    | start =>
      have h0 : ((uart_fno_init Kb dev i addr).2.DEV_UART i).w_start = 0 := by
        rw [uart_fno_init_cursor]; exact hzero
      exact ⟨⟨fun h => absurd h0 h, fun h => by cases h⟩, fun h => absurd h0 h⟩
    | @write K r t fd buf len _ hfd hbuf hlen hret _ =>
      have hlen0 : len ≠ 0 := by omega
      have hsrc : (write_cursor (K.DEV_UART i) buf len).w_start ≠ 0 := by
        unfold write_cursor
        split
        · exact hbuf
        · assumption
      by_cases hlt : (write_pushed K.mem (write_cursor (K.DEV_UART i) buf len)).w_start
          < (write_cursor (K.DEV_UART i) buf len).w_end
      · rw [devuart_write_again AGAIN K t fd i buf len hfd hlen0 hlt]
        simp only [Function.update_same]
        have hpos : (write_pushed K.mem (write_cursor (K.DEV_UART i) buf len)).w_start ≠ 0 := by
          simp only [write_pushed]; omega
        exact ⟨⟨fun _ => trivial, fun _ => hpos⟩, fun _ => hlt⟩
      · rw [devuart_write_done AGAIN K t fd i buf len hfd hlen0 hlt]
        simp only [Function.update_same]
        refine ⟨⟨fun h => absurd rfl h, fun h => ?_⟩, fun h => absurd rfl h⟩
        exact absurd (Option.some.inj h) hret
    | @write_zero K r t fd buf _ hfd ih =>
      have : devuart_write AGAIN K t fd buf 0 = (0, K) := by
        simp [devuart_write, hfd, wrap32]
      rw [this]
      exact ih
    | @read K r t fd buf len _ hfd ih =>
      obtain ⟨hs, he⟩ := devuart_read_cursor AGAIN K t fd i buf len hfd
      rw [hs, he]
      exact ih
    | @isr K r hw _ ih =>
      obtain ⟨hs, he, _⟩ := uart_isr_cursor K i hw
      rw [hs, he]
      exact ih
  refine ⟨key.1, key.2, ?_⟩
  intro v hv hne
  by_contra hcur
  have := key.1.mp hcur
  rw [hv] at this
  exact hne (Option.some.inj this)

/-- C9 (amended) at the sample configuration: after a 129-byte write that asked
for a retry and one transmit interrupt, the cursor of slot 0 is non-none and
lies before its end. -/
theorem write_cursor_invariant_witness :
    (Kflight.DEV_UART 0).w_start ≠ 0
    ∧ (Kflight.DEV_UART 0).w_start < (Kflight.DEV_UART 0).w_end
    ∧ ((Kflight.DEV_UART 0).w_start ≠ 0
        ↔ some (devuart_write again_sample Kreg t0 3 5000 129).1 = some again_sample) :=
  ⟨by decide,
   (write_cursor_invariant again_sample 0 (boot mem0) Kflight 0 { base := 1000, irq := 37 }
      (some (devuart_write again_sample Kreg t0 3 5000 129).1)
      (by rfl) (by decide)
      (drv_reach.isr hw_tx
        (drv_reach.write t0 3 5000 129 drv_reach.start (by rfl) (by decide) (by decide)
          (by decide)))).2.1 (by decide),
   (write_cursor_invariant again_sample 0 (boot mem0) Kflight 0 { base := 1000, irq := 37 }
      (some (devuart_write again_sample Kreg t0 3 5000 129).1)
      (by rfl) (by decide)
      (drv_reach.isr hw_tx
        (drv_reach.write t0 3 5000 129 drv_reach.start (by rfl) (by decide) (by decide)
          (by decide)))).1⟩

/-! ## The interrupt handler: wake-up, transmit path, frame (C13, C14, C15) -/

theorem uart_isr_resumed (K : Kernel) (i : Fin MAX_UARTS) (hw : usart_in) :
    (uart_isr K i hw).resumed =
      K.resumed ++ (if (K.DEV_UART i).pid = 0 then [] else [(K.DEV_UART i).pid]) := by
  unfold uart_isr
  rcases hu : K.DEV_UART i with ⟨base, irq, fno, inbuf, ⟨osz, obytes⟩, ws, we, m, pid⟩
  cases obytes <;>
  by_cases h1 : hw.txe = true <;> by_cases h2 : hw.rxne = true <;>
  by_cases h3 : hw.recv_ready = true <;>
  by_cases h4 : pid = 0 <;>
  simp [h1, h2, h3, h4, hu, set_uart, usart_send, usart_disable_tx_interrupt, task_resume,
    cirbuf_bytesinuse_eq_zero, cirbuf_readbyte, Nat.pos_iff_ne_zero]

theorem uart_isr_globals (K : Kernel) (i : Fin MAX_UARTS) (hw : usart_in) :
    (uart_isr K i hw).nvic = K.nvic ∧ (uart_isr K i hw).num_ttys = K.num_ttys
    ∧ (uart_isr K i hw).suspended = K.suspended := by
  unfold uart_isr
  rcases hu : K.DEV_UART i with ⟨base, irq, fno, inbuf, ⟨osz, obytes⟩, ws, we, m, pid⟩
  cases obytes <;>
  by_cases h1 : hw.txe = true <;> by_cases h2 : hw.rxne = true <;>
  by_cases h3 : hw.recv_ready = true <;>
  by_cases h4 : pid > 0 <;>
  simp [h1, h2, h3, h4, hu, set_uart, usart_send, usart_disable_tx_interrupt, task_resume,
    cirbuf_bytesinuse_eq_zero, cirbuf_readbyte]

/-- C13: whatever the interrupt flags, one invocation of `uart_isr` calls
`task_resume` exactly once, with the recorded waiting task id, when that id is
nonzero, and not at all when it is 0; the recorded id is left unchanged. -/
theorem isr_wake_up (K : Kernel) (i : Fin MAX_UARTS) (hw : usart_in) :
    (uart_isr K i hw).resumed
        = K.resumed ++ (if (K.DEV_UART i).pid = 0 then [] else [(K.DEV_UART i).pid])
    ∧ ((uart_isr K i hw).DEV_UART i).pid = (K.DEV_UART i).pid :=
  ⟨uart_isr_resumed K i hw, (uart_isr_cursor K i hw).2.2.2.1⟩

/-- C14: with the transmit flag set and `k ≥ 1` bytes in the outbound ring,
`uart_isr` removes exactly the oldest byte, hands exactly that byte to
`usart_send` once, leaves the other bytes queued in order and does not touch
the transmit interrupt enable; with the flag set and an empty ring it sends
nothing and disables the transmit interrupt; with the flag not set the
outbound ring, the bytes sent and the transmit interrupt enable are
unchanged. -/
theorem isr_transmit_path (K : Kernel) (i : Fin MAX_UARTS) (hw : usart_in) :
    (hw.txe = true → ∀ (b : Nat) (rest : List Nat), (K.DEV_UART i).outbuf.bytes = b :: rest →
        ((uart_isr K i hw).DEV_UART i).outbuf.bytes = rest
        ∧ ((uart_isr K i hw).usart (K.DEV_UART i).base).sent
            = (K.usart (K.DEV_UART i).base).sent ++ [b]
        ∧ ((uart_isr K i hw).usart (K.DEV_UART i).base).txeie
            = (K.usart (K.DEV_UART i).base).txeie)
    ∧ (hw.txe = true → (K.DEV_UART i).outbuf.bytes = [] →
        ((uart_isr K i hw).DEV_UART i).outbuf.bytes = []
        ∧ ((uart_isr K i hw).usart (K.DEV_UART i).base).sent
            = (K.usart (K.DEV_UART i).base).sent
        ∧ ((uart_isr K i hw).usart (K.DEV_UART i).base).txeie = false)
    ∧ (hw.txe = false →
        ((uart_isr K i hw).DEV_UART i).outbuf = (K.DEV_UART i).outbuf
        ∧ (uart_isr K i hw).usart = K.usart) := by
  refine ⟨?_, ?_, ?_⟩
  · intro htx b rest hb
    rw [uart_isr_usart, uart_isr_uart]
    simp [htx, hb]
  · intro htx hb
    rw [uart_isr_usart, uart_isr_uart]
    simp [htx, hb]
  · intro htx
    rw [uart_isr_usart, uart_isr_uart]
    simp [htx]

/-- C14 at the sample configuration: three bytes 136, 137, 138 are queued; a
transmit interrupt sends 136 and leaves 137, 138 queued. -/
theorem isr_transmit_path_witness :
    (Ktx3.DEV_UART 0).outbuf.bytes = [136, 137, 138]
    ∧ ((uart_isr Ktx3 0 hw_tx).DEV_UART 0).outbuf.bytes = [137, 138]
    ∧ ((uart_isr Ktx3 0 hw_tx).usart (Ktx3.DEV_UART 0).base).sent
        = (Ktx3.usart (Ktx3.DEV_UART 0).base).sent ++ [136]
    ∧ ((uart_isr Ktx3 0 hw_tx).usart (Ktx3.DEV_UART 0).base).txeie
        = (Ktx3.usart (Ktx3.DEV_UART 0).base).txeie :=
  ⟨by rfl, (isr_transmit_path Ktx3 0 hw_tx).1 rfl 136 [137, 138] (by rfl)⟩

/-- C15: whatever the interrupt flags, `uart_isr` leaves the lock (its state
and its acquire and release counts), the write cursor, the base address, the
irq number, the file node and the waiting task id of the instance unchanged,
and likewise the capacity of both rings, every other instance, the receive
interrupt enable, the peripherals at other base addresses, the interrupt
controller, the caller memory and the file nodes: of the instance and
peripheral state it can change only the contents of the two rings and the
transmit interrupt enable. -/
theorem isr_frame (K : Kernel) (i : Fin MAX_UARTS) (hw : usart_in) :
    ((uart_isr K i hw).DEV_UART i).mutex = (K.DEV_UART i).mutex
    ∧ ((uart_isr K i hw).DEV_UART i).w_start = (K.DEV_UART i).w_start
    ∧ ((uart_isr K i hw).DEV_UART i).w_end = (K.DEV_UART i).w_end
    ∧ ((uart_isr K i hw).DEV_UART i).base = (K.DEV_UART i).base
    ∧ ((uart_isr K i hw).DEV_UART i).irq = (K.DEV_UART i).irq
    ∧ ((uart_isr K i hw).DEV_UART i).fno = (K.DEV_UART i).fno
    ∧ ((uart_isr K i hw).DEV_UART i).pid = (K.DEV_UART i).pid
    ∧ ((uart_isr K i hw).DEV_UART i).inbuf.bufsize = (K.DEV_UART i).inbuf.bufsize
    ∧ ((uart_isr K i hw).DEV_UART i).outbuf.bufsize = (K.DEV_UART i).outbuf.bufsize
    ∧ (∀ j : Fin MAX_UARTS, j ≠ i → (uart_isr K i hw).DEV_UART j = K.DEV_UART j)
    ∧ (∀ b : Nat, ((uart_isr K i hw).usart b).rxneie = (K.usart b).rxneie)
    ∧ (∀ b : Nat, b ≠ (K.DEV_UART i).base → (uart_isr K i hw).usart b = K.usart b)
    ∧ (uart_isr K i hw).nvic = K.nvic
    ∧ (uart_isr K i hw).mem = K.mem
    ∧ (uart_isr K i hw).fnodes = K.fnodes := by
  obtain ⟨hs, he, hb, hp, hm, hi⟩ := uart_isr_cursor K i hw
  refine ⟨hm, hs, he, hb, hi, ?_, hp, ?_, ?_, fun j hj => uart_isr_other K i j hw hj, ?_, ?_,
    (uart_isr_globals K i hw).1, uart_isr_mem K i hw, uart_isr_fnodes K i hw⟩
  · rw [uart_isr_uart]
  · rw [uart_isr_uart]
    simp only [cirbuf_writebyte]
    split
    · split <;> rfl
    · rfl
  · rw [uart_isr_uart]
    simp only
    split <;> rfl
  · intro b
    rw [uart_isr_usart]
    split
    · by_cases hbb : b = (K.DEV_UART i).base
      · subst hbb
        rw [Function.update_same]
        split <;> rfl
      · rw [Function.update_noteq hbb]
    · rfl
  · intro b hbb
    rw [uart_isr_usart]
    split
    · rw [Function.update_noteq hbb]
    · rfl

/-! ## Critical sections (C16) -/

/-- C16: on a registered instance entered with the lock free and the receive
interrupt enabled, every `devuart_read` call of positive length returns with
the lock released (one acquire, one release) and the receive interrupt
enabled, and every `devuart_write` call of positive length returns with the
lock released (one acquire, one release) and the transmit interrupt enabled,
on the retry path and on the completion path alike. -/
theorem critical_sections_balanced (AGAIN : Int) (K : Kernel) (t : task) (fd : Int)
    (i : Fin MAX_UARTS) (buf n : Nat)
    (hfd : uart_check_fd K t fd = some i) (hn : 0 < n)
    (_hfree : (K.DEV_UART i).mutex.locked = false)
    (_hrx : (K.usart (K.DEV_UART i).base).rxneie = true) :
    (((devuart_read AGAIN K t fd buf n).2.DEV_UART i).mutex
        = { locked := false, acquired := (K.DEV_UART i).mutex.acquired + 1,
            released := (K.DEV_UART i).mutex.released + 1 }
      ∧ ((devuart_read AGAIN K t fd buf n).2.usart (K.DEV_UART i).base).rxneie = true)
    ∧ (((devuart_write AGAIN K t fd buf n).2.DEV_UART i).mutex
        = { locked := false, acquired := (K.DEV_UART i).mutex.acquired + 1,
            released := (K.DEV_UART i).mutex.released + 1 }
      ∧ ((devuart_write AGAIN K t fd buf n).2.usart (K.DEV_UART i).base).txeie = true) := by
  have hn0 : n ≠ 0 := by omega
  constructor
  · by_cases hempty : (K.DEV_UART i).inbuf.bytes = []
    · rw [devuart_read_again AGAIN K t fd i buf n hfd hn0 hempty]
      simp [frosted_mutex_lock, frosted_mutex_unlock]
    · rw [devuart_read_data AGAIN K t fd i buf n hfd hn0 hempty]
      simp [frosted_mutex_lock, frosted_mutex_unlock]
  · have hm : (write_cursor (K.DEV_UART i) buf n).mutex = (K.DEV_UART i).mutex := by
      unfold write_cursor; split <;> rfl
    by_cases hlt : (write_pushed K.mem (write_cursor (K.DEV_UART i) buf n)).w_start
        < (write_cursor (K.DEV_UART i) buf n).w_end
    · rw [devuart_write_again AGAIN K t fd i buf n hfd hn0 hlt]
      simp [write_pushed, hm, frosted_mutex_lock, frosted_mutex_unlock]
    · rw [devuart_write_done AGAIN K t fd i buf n hfd hn0 hlt]
      simp [write_pushed, hm, frosted_mutex_lock, frosted_mutex_unlock]

/-- C16 at the sample configuration: a read on the empty ring (retry path) and
a 200-byte write (retry path) on the registered slot 0 both return with the
lock released. -/
theorem critical_sections_balanced_witness :
    (Kreg.DEV_UART 0).mutex.locked = false
    ∧ (Kreg.usart (Kreg.DEV_UART 0).base).rxneie = true
    ∧ (devuart_read again_sample Kreg t0 3 7000 10).1 = again_sample
    ∧ ((devuart_read again_sample Kreg t0 3 7000 10).2.DEV_UART 0).mutex
        = { locked := false, acquired := (Kreg.DEV_UART 0).mutex.acquired + 1,
            released := (Kreg.DEV_UART 0).mutex.released + 1 }
    ∧ ((devuart_write again_sample Kreg t0 3 5000 200).2.usart (Kreg.DEV_UART 0).base).txeie
        = true :=
  ⟨by rfl, by rfl, by rfl,
   (critical_sections_balanced again_sample Kreg t0 3 0 7000 10 (by rfl) (by decide)
      (by rfl) (by rfl)).1.1,
   (critical_sections_balanced again_sample Kreg t0 3 0 5000 200 (by rfl) (by decide)
      (by rfl) (by rfl)).2.2⟩

/-! ## Registration (C12, C17) -/

/-- C12: with base address 0, `uart_fno_init` returns -1 and leaves every slot
of the table, the file nodes, the peripherals and the interrupt controller as
they were (nothing is written, created or enabled); with a non-zero base it
returns 0, stores base and irq, sets the waiting task id to 0, creates a free
lock and two empty rings of capacity 128, creates the device node owned by the
driver and pointing at the slot, and enables the receive interrupt and the
interrupt vector. -/
theorem registration (K : Kernel) (dev : Nat) (n : Fin MAX_UARTS) (addr : uart_addr) :
    (addr.base = 0 →
        (uart_fno_init K dev n addr).1 = -1
        ∧ (uart_fno_init K dev n addr).2.DEV_UART = K.DEV_UART
        ∧ (uart_fno_init K dev n addr).2.fnodes = K.fnodes
        ∧ (uart_fno_init K dev n addr).2.usart = K.usart
        ∧ (uart_fno_init K dev n addr).2.nvic = K.nvic
        ∧ (uart_fno_init K dev n addr).2.mem = K.mem)
    ∧ (addr.base ≠ 0 →
        (uart_fno_init K dev n addr).1 = 0
        ∧ ((uart_fno_init K dev n addr).2.DEV_UART n).base = addr.base
        ∧ ((uart_fno_init K dev n addr).2.DEV_UART n).irq = addr.irq
        ∧ ((uart_fno_init K dev n addr).2.DEV_UART n).pid = 0
        ∧ ((uart_fno_init K dev n addr).2.DEV_UART n).inbuf = { bufsize := 128, bytes := [] }
        ∧ ((uart_fno_init K dev n addr).2.DEV_UART n).outbuf = { bufsize := 128, bytes := [] }
        ∧ ((uart_fno_init K dev n addr).2.DEV_UART n).mutex = frosted_mutex_init
        ∧ ((uart_fno_init K dev n addr).2.usart addr.base).rxneie = true
        ∧ (uart_fno_init K dev n addr).2.nvic addr.irq = true) := by
  constructor
  · intro hb
    simp [uart_fno_init, hb]
  · intro hb
    simp [uart_fno_init, hb, fnode_set_priv, set_uart, fno_create, nvic_enable_irq,
      usart_enable_rx_interrupt, cirbuf_create]

/-- C12 at the sample configuration: registration of slot 0 on the boot state
fails with base 0 and succeeds with base 1000. -/
theorem registration_witness :
    ((uart_fno_init (boot mem0) 0 0 { base := 0, irq := 37 }).1 = -1
      ∧ (uart_fno_init (boot mem0) 0 0 { base := 0, irq := 37 }).2.DEV_UART
          = (boot mem0).DEV_UART)
    ∧ ((uart_fno_init (boot mem0) 0 0 { base := 1000, irq := 37 }).1 = 0
      ∧ ((uart_fno_init (boot mem0) 0 0 { base := 1000, irq := 37 }).2.DEV_UART 0).inbuf
          = { bufsize := 128, bytes := [] }
      ∧ ((uart_fno_init (boot mem0) 0 0 { base := 1000, irq := 37 }).2.usart 1000).rxneie
          = true) :=
  ⟨⟨((registration (boot mem0) 0 0 { base := 0, irq := 37 }).1 rfl).1,
    ((registration (boot mem0) 0 0 { base := 0, irq := 37 }).1 rfl).2.1⟩,
   ⟨((registration (boot mem0) 0 0 { base := 1000, irq := 37 }).2 (by decide)).1,
    ((registration (boot mem0) 0 0 { base := 1000, irq := 37 }).2 (by decide)).2.2.2.2.1,
    ((registration (boot mem0) 0 0 { base := 1000, irq := 37 }).2 (by decide)).2.2.2.2.2.2.2.1⟩⟩

/-- C17 (the code at the failing input): at boot, a registration with base 0
fails and creates no node; the next registration, the first successful one,
creates its node under the name `ttyS1` (character codes 116 116 121 83 49),
not `ttyS0`: the failed registration has consumed the suffix 0. -/
theorem failed_registration_consumes_suffix :
    (uart_fno_init (boot mem0) 0 0 { base := 0, irq := 37 }).1 = -1
    ∧ Kfail.fnodes = []
    ∧ (uart_fno_init Kfail 0 1 { base := 2000, irq := 38 }).1 = 0
    ∧ (uart_fno_init Kfail 0 1 { base := 2000, irq := 38 }).2.fnodes
        = [{ owner := module_id.mod_devuart, name := [116, 116, 121, 83, 49], parent := 0,
             priv := some 1 }] :=
  ⟨by rfl, by rfl, by rfl, by rfl⟩

/-! ## Poll (C11, C18) -/

theorem devuart_poll_eq (POLLIN POLLOUT : Nat) (K : Kernel) (t : task) (fd : Int)
    (i : Fin MAX_UARTS) (events : Nat) (ready : Bool) (hfd : uart_check_fd K t fd = some i) :
    devuart_poll POLLIN POLLOUT K t fd events ready =
      ((if events &&& POLLOUT ≠ 0 ∨ (events = POLLIN ∧ ready = true) then 1 else 0),
       some ((if events &&& POLLOUT ≠ 0 then POLLOUT else 0)
              ||| (if events = POLLIN ∧ ready = true then POLLIN else 0)),
       K) := by
  unfold devuart_poll
  rw [hfd]
  by_cases h1 : events &&& POLLOUT ≠ 0 <;> by_cases h2 : events = POLLIN ∧ ready = true
  · simp only [if_pos h1, if_pos h2, if_pos (Or.inl h1 : _ ∨ _), Nat.zero_or, Nat.or_zero]
  · simp only [if_pos h1, if_neg h2, if_pos (Or.inl h1 : _ ∨ _), Nat.zero_or, Nat.or_zero]
  · simp only [if_neg h1, if_pos h2, if_pos (Or.inr h2 : _ ∨ _), Nat.zero_or, Nat.or_zero]
  · have h3 : ¬ (events &&& POLLOUT ≠ 0 ∨ (events = POLLIN ∧ ready = true)) := by
      intro h; exact h.elim h1 h2
    simp only [if_neg h1, if_neg h2, if_neg h3, Nat.zero_or, Nat.or_zero]

theorem and_two_pow_ne_zero (e b : Nat) : e &&& 2 ^ b ≠ 0 ↔ e.testBit b = true := by
  rw [Nat.and_two_pow]
  cases h : e.testBit b
  · simp
  · simp

theorem and_two_pow_eq_self (e b : Nat) : e &&& 2 ^ b = 2 ^ b ↔ e.testBit b = true := by
  have hpos := Nat.two_pow_pos b
  rw [Nat.and_two_pow]
  cases h : e.testBit b
  · simp; omega
  · simp

theorem two_pow_or_ne_zero (b x : Nat) : 2 ^ b ||| x ≠ 0 := by
  intro h
  have hb : (2 ^ b ||| x).testBit b = true := by
    rw [Nat.testBit_or, Nat.testBit_two_pow_self, Bool.true_or]
  rw [h, Nat.zero_testBit] at hb
  exact Bool.noConfusion hb

/-- C11: on a registered instance, `devuart_poll` reports `POLLOUT` and returns
1 whenever `POLLOUT` is among the requested events, in every device state; it
reports `POLLIN` only when the hardware receive-ready indication is set; its
answer does not depend on the device state (so not on the bytes queued in the
inbound ring); and every reported event was requested.  `POLLIN` and `POLLOUT`
are two distinct single event bits. -/
theorem poll_readiness (POLLIN POLLOUT a b : Nat) (hin : POLLIN = 2 ^ a) (hout : POLLOUT = 2 ^ b)
    (hab : a ≠ b) (K : Kernel) (t : task) (fd : Int) (i : Fin MAX_UARTS) (events : Nat)
    (ready : Bool) (hfd : uart_check_fd K t fd = some i) :
    ∃ revents : Nat,
      (devuart_poll POLLIN POLLOUT K t fd events ready).2.1 = some revents
      ∧ (events &&& POLLOUT = POLLOUT →
          revents &&& POLLOUT = POLLOUT
          ∧ (devuart_poll POLLIN POLLOUT K t fd events ready).1 = 1)
      ∧ (revents &&& POLLIN = POLLIN → ready = true)
      ∧ revents &&& events = revents
      ∧ (∀ (K' : Kernel) (t' : task) (fd' : Int) (j : Fin MAX_UARTS),
          uart_check_fd K' t' fd' = some j →
          (devuart_poll POLLIN POLLOUT K' t' fd' events ready).1
            = (devuart_poll POLLIN POLLOUT K t fd events ready).1
          ∧ (devuart_poll POLLIN POLLOUT K' t' fd' events ready).2.1 = some revents) := by
  subst hin hout
  rw [devuart_poll_eq _ _ K t fd i events ready hfd]
  refine ⟨_, rfl, ?_, ?_, ?_, ?_⟩
  · intro hreq
    have hbit : events.testBit b = true := (and_two_pow_eq_self events b).mp hreq
    have hne : events &&& 2 ^ b ≠ 0 := (and_two_pow_ne_zero events b).mpr hbit
    simp only [if_pos hne, if_pos (Or.inl hne : _ ∨ _), and_true]
    rw [and_two_pow_eq_self, Nat.testBit_or, Nat.testBit_two_pow_self, Bool.true_or]
  · intro hrep
    rw [and_two_pow_eq_self, Nat.testBit_or] at hrep
    by_cases h2 : events = 2 ^ a ∧ ready = true
    · exact h2.2
    · exfalso
      rw [if_neg h2, Nat.zero_testBit, Bool.or_false] at hrep
      by_cases h1 : events &&& 2 ^ b ≠ 0
      · rw [if_pos h1, Nat.testBit_two_pow_of_ne (Ne.symm hab)] at hrep
        exact Bool.noConfusion hrep
      · rw [if_neg h1, Nat.zero_testBit] at hrep
        exact Bool.noConfusion hrep
  · apply Nat.eq_of_testBit_eq
    intro k
    rw [Nat.testBit_and, Nat.testBit_or]
    by_cases h1 : events &&& 2 ^ b ≠ 0 <;> by_cases h2 : events = 2 ^ a ∧ ready = true
    · have hbit := (and_two_pow_ne_zero events b).mp h1
      rw [if_pos h1, if_pos h2]
      by_cases hk : b = k
      · subst hk; simp [hbit]
      · rw [Nat.testBit_two_pow_of_ne hk, h2.1]; simp
    · have hbit := (and_two_pow_ne_zero events b).mp h1
      rw [if_pos h1, if_neg h2]
      by_cases hk : b = k
      · subst hk; simp [hbit]
      · rw [Nat.testBit_two_pow_of_ne hk]; simp
    · rw [if_neg h1, if_pos h2, h2.1]; simp
    · rw [if_neg h1, if_neg h2]; simp
  · intro K' t' fd' j hfd'
    rw [devuart_poll_eq _ _ K' t' fd' j events ready hfd']
    exact ⟨rfl, rfl⟩

/-- C11 at the sample configuration with `POLLIN = 1`, `POLLOUT = 4`: a request
for `POLLOUT` on the registered slot 0 is answered with `POLLOUT` and 1. -/
theorem poll_readiness_witness :
    ∃ revents : Nat,
      (devuart_poll 1 4 Kreg t0 3 4 false).2.1 = some revents
      ∧ (4 &&& 4 = 4 →
          revents &&& 4 = 4 ∧ (devuart_poll 1 4 Kreg t0 3 4 false).1 = 1)
      ∧ (revents &&& 1 = 1 → false = true)
      ∧ revents &&& 4 = revents
      ∧ (∀ (K' : Kernel) (t' : task) (fd' : Int) (j : Fin MAX_UARTS),
          uart_check_fd K' t' fd' = some j →
          (devuart_poll 1 4 K' t' fd' 4 false).1 = (devuart_poll 1 4 Kreg t0 3 4 false).1
          ∧ (devuart_poll 1 4 K' t' fd' 4 false).2.1 = some revents) :=
  poll_readiness 1 4 0 2 (by decide) (by decide) (by decide) Kreg t0 3 0 4 false (by rfl)

/-- C18: on a registered instance, `devuart_poll` sets `POLLIN` in the returned
events exactly when the requested event set is exactly `POLLIN` and the
hardware reports a byte ready; so for a request of `POLLIN` together with
`POLLOUT` and the hardware ready the returned events are `POLLOUT` alone; and
the return value is 1 exactly when the returned event set is non-empty, 0
otherwise.  `POLLIN` and `POLLOUT` are two distinct single event bits. -/
theorem poll_read_by_equality (POLLIN POLLOUT a b : Nat) (hin : POLLIN = 2 ^ a)
    (hout : POLLOUT = 2 ^ b) (hab : a ≠ b) (K : Kernel) (t : task) (fd : Int)
    (i : Fin MAX_UARTS) (events : Nat) (ready : Bool) (hfd : uart_check_fd K t fd = some i) :
    ∃ revents : Nat,
      (devuart_poll POLLIN POLLOUT K t fd events ready).2.1 = some revents
      ∧ (revents &&& POLLIN = POLLIN ↔ (events = POLLIN ∧ ready = true))
      ∧ (events = POLLIN ||| POLLOUT → ready = true → revents = POLLOUT)
      ∧ ((devuart_poll POLLIN POLLOUT K t fd events ready).1 = 1 ↔ revents ≠ 0)
      ∧ ((devuart_poll POLLIN POLLOUT K t fd events ready).1 ≠ 1 →
          (devuart_poll POLLIN POLLOUT K t fd events ready).1 = 0) := by
  subst hin hout
  have hpa := Nat.two_pow_pos a
  have hpb := Nat.two_pow_pos b
  rw [devuart_poll_eq _ _ K t fd i events ready hfd]
  refine ⟨_, rfl, ?_, ?_, ?_, ?_⟩
  · rw [and_two_pow_eq_self, Nat.testBit_or]
    by_cases h2 : events = 2 ^ a ∧ ready = true
    · rw [if_pos h2, Nat.testBit_two_pow_self, Bool.or_true]
      exact ⟨fun _ => h2, fun _ => rfl⟩
    · rw [if_neg h2, Nat.zero_testBit, Bool.or_false]
      constructor
      · intro hrep
        exfalso
        by_cases h1 : events &&& 2 ^ b ≠ 0
        · rw [if_pos h1, Nat.testBit_two_pow_of_ne (Ne.symm hab)] at hrep
          exact Bool.noConfusion hrep
        · rw [if_neg h1, Nat.zero_testBit] at hrep
          exact Bool.noConfusion hrep
      · intro h; exact absurd h h2
  · intro hev _
    have hbit : events.testBit b = true := by
      rw [hev, Nat.testBit_or, Nat.testBit_two_pow_self, Bool.or_true]
    have h1 : events &&& 2 ^ b ≠ 0 := (and_two_pow_ne_zero events b).mpr hbit
    have h2 : ¬ (events = 2 ^ a ∧ ready = true) := by
      intro h
      rw [h.1, Nat.testBit_two_pow_of_ne hab] at hbit
      exact Bool.noConfusion hbit
    rw [if_pos h1, if_neg h2, Nat.or_zero]
  · by_cases h1 : events &&& 2 ^ b ≠ 0 <;> by_cases h2 : events = 2 ^ a ∧ ready = true
    · simp only [if_pos h1, if_pos h2, if_pos (Or.inl h1 : _ ∨ _), true_iff]
      exact two_pow_or_ne_zero b _
    · simp only [if_pos h1, if_neg h2, if_pos (Or.inl h1 : _ ∨ _), true_iff, Nat.or_zero]
      omega
    · simp only [if_neg h1, if_pos h2, if_pos (Or.inr h2 : _ ∨ _), true_iff, Nat.zero_or]
      omega
    · have h3 : ¬ (events &&& 2 ^ b ≠ 0 ∨ (events = 2 ^ a ∧ ready = true)) := by
        intro h; exact h.elim h1 h2
      simp [if_neg h1, if_neg h2, if_neg h3]
  · by_cases h3 : events &&& 2 ^ b ≠ 0 ∨ (events = 2 ^ a ∧ ready = true)
    · intro h; rw [if_pos h3] at h; exact absurd rfl h
    · intro _; rw [if_neg h3]

/-- C18 at the sample configuration with `POLLIN = 1`, `POLLOUT = 4`: a request
for both events (5) with the hardware ready is answered with `POLLOUT` alone. -/
theorem poll_read_by_equality_witness :
    (devuart_poll 1 4 Kreg t0 3 5 true).1 = 1
    ∧ ∃ revents : Nat,
      (devuart_poll 1 4 Kreg t0 3 5 true).2.1 = some revents
      ∧ (revents &&& 1 = 1 ↔ ((5 : Nat) = 1 ∧ true = true))
      ∧ ((5 : Nat) = 1 ||| 4 → true = true → revents = 4)
      ∧ ((devuart_poll 1 4 Kreg t0 3 5 true).1 = 1 ↔ revents ≠ 0)
      ∧ ((devuart_poll 1 4 Kreg t0 3 5 true).1 ≠ 1 →
          (devuart_poll 1 4 Kreg t0 3 5 true).1 = 0) :=
  ⟨by rfl,
   poll_read_by_equality 1 4 0 2 (by decide) (by decide) (by decide) Kreg t0 3 0 5 true
     (by rfl)⟩

end Frosted
